import Mathlib

/-!
Shallow embedding of `samples/hello_ar_c/app/src/main/cpp/hello_ar_application.cc`.

The ARCore SDK is an opaque external dependency: every SDK call is modelled by
an oracle structure whose fields give the SDK's responses (statuses, object
handles, trackable types, tracking states, random values).  Each application
method becomes a Lean function from the application state and an oracle to the
new application state together with a trace of events (object
acquisitions/releases, draw calls, log lines) in source order.
-/

namespace HelloAr

/-- `ArStatus`: `AR_SUCCESS` or an error code. -/
inductive ArStatus where
  | success
  | error (code : Nat)
deriving DecidableEq

/-- `ArTrackingState`. -/
inductive ArTrackingState where
  | tracking
  | paused
  | stopped
deriving DecidableEq

/-- `ArTrackableType` (only the alternatives the sample inspects). -/
inductive ArTrackableType where
  | plane
  | point
  | notValid
deriving DecidableEq

/-- `ArLightEstimateState`. -/
inductive ArLightEstimateState where
  | valid
  | notValid
deriving DecidableEq

/-- RGB color as produced by `GetRandomPlaneColor` (`glm::vec3`), with exact
rationals in place of `float`. -/
structure Color where
  r : ℚ
  g : ℚ
  b : ℚ
deriving DecidableEq

/-- The tracking objects the sample acquires or creates through the SDK,
identified by numeric handles. -/
inductive Obj where
  | camera (n : Nat)
  | lightEstimate (n : Nat)
  | trackableList (n : Nat)
  | trackable (n : Nat)
  | pointCloud (n : Nat)
  | hitResultList (n : Nat)
  | hitResult (n : Nat)
  | pose (n : Nat)
  | anchor (n : Nat)
  | frame
deriving DecidableEq

/-- Trace events, in the order the corresponding calls appear in the source.
`acquire` covers both `_create` and `_acquire` SDK calls, `release` covers both
`_release` and `_destroy`. -/
inductive Event where
  | update (st : ArStatus)
  | logError (tag : Nat)
  | acquire (ob : Obj)
  | release (ob : Obj)
  | readView (cam : Nat)
  | readProj (cam : Nat)
  | drawBackground
  | drawAndy (a : Nat) (transform : Nat) (intensity : ℚ)
  | drawPlane (p : Nat) (c : Color)
  | drawPointCloud (n : Nat)
  | createSession
  | createConfig
  | checkSupported
  | configure
  | destroyConfig
  | createFrame
deriving DecidableEq

/-- Number of `acquire ob` events in a trace. -/
def acqCount (ob : Obj) (tr : List Event) : Nat :=
  tr.countP (fun e => decide (e = Event.acquire ob))

/-- Number of `release ob` events in a trace. -/
def relCount (ob : Obj) (tr : List Event) : Nat :=
  tr.countP (fun e => decide (e = Event.release ob))

/-- Application state: the members of `HelloArApplication` that the claims
touch.  `ar_session_`/`ar_frame_` are `none` when the pointers are null;
`tracked_obj_set_` models `std::unordered_set<ArAnchor*>` as a duplicate-free
list; `plane_color_map_` models `std::unordered_map<ArPlane*, glm::vec3>` as an
association list. -/
structure AppState where
  ar_session_ : Option Nat
  ar_frame_ : Option Nat
  tracked_obj_set_ : List Nat
  plane_color_map_ : List (Nat × Color)
  plane_count_ : Nat
deriving DecidableEq

/-- Set insertion for `tracked_obj_set_` (`std::unordered_set::insert`). -/
def setInsert (s : List Nat) (a : Nat) : List Nat :=
  if a ∈ s then s else s ++ [a]

/-- Lookup in `plane_color_map_` (`std::unordered_map::find`). -/
def mapFind (m : List (Nat × Color)) (p : Nat) : Option Color :=
  (m.find? (fun kv => kv.1 == p)).map (fun kv => kv.2)

/-- Insertion into `plane_color_map_` (`std::unordered_map::insert`, which
leaves an existing entry for the key unchanged). -/
def mapInsert (m : List (Nat × Color)) (p : Nat) (c : Color) : List (Nat × Color) :=
  match mapFind m p with
  | some _ => m
  | none => m ++ [(p, c)]

/-! ### `GetRandomPlaneColor` -/

/-- `kPlaneColorRgbaSize`. -/
def kPlaneColorRgbaSize : Nat := 16

/-- `kPlaneColorRgba`. -/
def kPlaneColorRgba : List Nat :=
  [0xFFFFFFFF, 0xF44336FF, 0xE91E63FF, 0x9C27B0FF, 0x673AB7FF, 0x3F51B5FF,
   0x2196F3FF, 0x03A9F4FF, 0x00BCD4FF, 0x009688FF, 0x4CAF50FF, 0x8BC34AFF,
   0xCDDC39FF, 0xFFEB3BFF, 0xFFC107FF, 0xFF9800FF]

/-- Unpack an RGBA word into the `glm::vec3` built by `GetRandomPlaneColor`. -/
def colorFromRgba (colorRgba : Nat) : Color :=
  { r := (((colorRgba >>> 24) &&& 0xff : Nat) : ℚ) / 255
    g := (((colorRgba >>> 16) &&& 0xff : Nat) : ℚ) / 255
    b := (((colorRgba >>> 8) &&& 0xff : Nat) : ℚ) / 255 }

/-- `GetRandomPlaneColor`, with the value of the `std::rand()` call passed in. -/
def GetRandomPlaneColor (randValue : Nat) : Color :=
  colorFromRgba (kPlaneColorRgba.getD (randValue % kPlaneColorRgbaSize) 0)

/-! ### `OnTouched` -/

/-- Oracle for one `OnTouched` call: the SDK's responses, indexed by the
position `i` of the hit result in the hit-test list.  `createOk i` is whether
`ArHitResult_create` yields a non-null pointer for iteration `i`;
`trackableId i` is the handle returned by `ArHitResult_acquireTrackable`;
`anchorId i` the handle a successful `ArHitResult_acquireNewAnchor` returns. -/
structure TouchOracle where
  hitCount : Nat
  createOk : Nat → Bool
  trackableType : Nat → ArTrackableType
  trackableId : Nat → Nat
  inPolygon : Nat → Bool
  anchorStatus : Nat → ArStatus
  anchorId : Nat → Nat
  anchorTracking : Nat → ArTrackingState

/-- One iteration of the loop body of `OnTouched` at hit-result index `i`:
events emitted, anchor inserted into `tracked_obj_set_` (if any), and whether
the iteration executed one of the two early `return` statements. -/
def touchIter (o : TouchOracle) (i : Nat) : List Event × Option Nat × Bool :=
  if o.createOk i = false then
    ([Event.logError 1], none, true)
  else if o.trackableType i ≠ ArTrackableType.plane then
    ([Event.acquire (Obj.hitResult i),
      Event.acquire (Obj.trackable (o.trackableId i)),
      Event.release (Obj.trackable (o.trackableId i))], none, false)
  else if o.inPolygon i = false then
    ([Event.acquire (Obj.hitResult i),
      Event.acquire (Obj.trackable (o.trackableId i)),
      Event.acquire (Obj.pose i),
      Event.release (Obj.trackable (o.trackableId i)),
      Event.release (Obj.pose i)], none, false)
  else if o.anchorStatus i ≠ ArStatus.success then
    ([Event.acquire (Obj.hitResult i),
      Event.acquire (Obj.trackable (o.trackableId i)),
      Event.acquire (Obj.pose i),
      Event.release (Obj.trackable (o.trackableId i)),
      Event.release (Obj.pose i),
      Event.logError 2], none, true)
  else if o.anchorTracking i ≠ ArTrackingState.tracking then
    ([Event.acquire (Obj.hitResult i),
      Event.acquire (Obj.trackable (o.trackableId i)),
      Event.acquire (Obj.pose i),
      Event.release (Obj.trackable (o.trackableId i)),
      Event.release (Obj.pose i),
      Event.acquire (Obj.anchor (o.anchorId i)),
      Event.release (Obj.anchor (o.anchorId i))], none, false)
  else
    ([Event.acquire (Obj.hitResult i),
      Event.acquire (Obj.trackable (o.trackableId i)),
      Event.acquire (Obj.pose i),
      Event.release (Obj.trackable (o.trackableId i)),
      Event.release (Obj.pose i),
      Event.acquire (Obj.anchor (o.anchorId i)),
      Event.release (Obj.hitResult i)], some (o.anchorId i), false)

/-- The `for` loop of `OnTouched`, starting at index `i` with `n` iterations
left: events, anchors inserted (in order), and whether an early `return`
happened. -/
def touchLoopFrom (o : TouchOracle) (i : Nat) : Nat → List Event × List Nat × Bool
  | 0 => ([], [], false)
  | n + 1 =>
    let step := touchIter o i
    if step.2.2 then
      (step.1, [], true)
    else
      let rest := touchLoopFrom o (i + 1) n
      (step.1 ++ rest.1,
       (match step.2.1 with
        | some a => a :: rest.2.1
        | none => rest.2.1),
       rest.2.2)

/-- `HelloArApplication::OnTouched`. -/
def OnTouched (s : AppState) (o : TouchOracle) : AppState × List Event :=
  if s.ar_frame_ ≠ none ∧ s.ar_session_ ≠ none then
    let loop := touchLoopFrom o 0 o.hitCount
    ({ s with tracked_obj_set_ := loop.2.1.foldl setInsert s.tracked_obj_set_ },
     [Event.acquire (Obj.hitResultList 0)] ++ loop.1 ++
       (if loop.2.2 then [] else [Event.release (Obj.hitResultList 0)]))
  else
    (s, [])

/-! ### Specification-side views of the `OnTouched` loop -/

/-- Iteration `i` triggers an early `return`: `ArHitResult_create` yields null,
or a hit on a plane inside its polygon fails `ArHitResult_acquireNewAnchor`. -/
def earlyAtB (o : TouchOracle) (i : Nat) : Bool :=
  !o.createOk i ||
    (o.trackableType i == ArTrackableType.plane && o.inPolygon i &&
      !(o.anchorStatus i == ArStatus.success))

/-- Hit result `i` qualifies for anchor insertion: hit-result creation
succeeds, the trackable is a plane, the hit pose is in the polygon, the anchor
is acquired with `AR_SUCCESS` and is in tracking state. -/
def qualifiesB (o : TouchOracle) (i : Nat) : Bool :=
  o.createOk i && o.trackableType i == ArTrackableType.plane && o.inPolygon i &&
    o.anchorStatus i == ArStatus.success &&
    o.anchorTracking i == ArTrackingState.tracking

/-- The loop reaches iteration `i`: `i` is in range and no earlier iteration
returned early. -/
def processedB (o : TouchOracle) (i : Nat) : Bool :=
  decide (i < o.hitCount) && (List.range i).all (fun j => !earlyAtB o j)

/-- Indices whose hit result leads to an anchor insertion, by the same
recursion as the loop. -/
def insertedIdxFrom (o : TouchOracle) (i : Nat) : Nat → List Nat
  | 0 => []
  | n + 1 =>
    if earlyAtB o i then []
    else (if qualifiesB o i then [i] else []) ++ insertedIdxFrom o (i + 1) n

/-- Indices of hit results that lead to an anchor insertion during
`OnTouched`. -/
def insertedIdx (o : TouchOracle) : List Nat :=
  insertedIdxFrom o 0 o.hitCount

/-- Whether the `OnTouched` loop performs an early `return`, by the same
recursion as the loop. -/
def anyEarlyFrom (o : TouchOracle) (i : Nat) : Nat → Bool
  | 0 => false
  | n + 1 => earlyAtB o i || anyEarlyFrom o (i + 1) n

/-- Number of iterations in which `ArHitResult_create` produced a (non-null)
hit result, by the same recursion as the loop. -/
def hitResultAcqSpecFrom (o : TouchOracle) (i : Nat) : Nat → Nat
  | 0 => 0
  | n + 1 =>
    if earlyAtB o i then (if o.createOk i then 1 else 0)
    else 1 + hitResultAcqSpecFrom o (i + 1) n

/-! ### `OnDrawFrame` -/

/-- Oracle for one `OnDrawFrame` call.  `rand k` is the value of the `k`-th
`std::rand()` call of this frame; `planes` the handles returned by
`ArSession_getAllTrackables`/`ArTrackableList_acquireItem`;
`anchorTracking`/`anchorTransform` the per-anchor SDK responses. -/
structure DrawOracle where
  updateStatus : ArStatus
  cameraId : Nat
  lightId : Nat
  lightState : ArLightEstimateState
  pixelIntensity : ℚ
  anchorTracking : Nat → ArTrackingState
  anchorTransform : Nat → Nat
  planeListId : Nat
  planes : List Nat
  rand : Nat → Nat
  pcStatus : ArStatus
  pcId : Nat

/-- The light intensity fed to the Andy renderer: the default `0.8f`, replaced
by `ArLightEstimate_getPixelIntensity` when the estimate state is valid. -/
def lightIntensity (o : DrawOracle) : ℚ :=
  if o.lightState = ArLightEstimateState.valid then o.pixelIntensity else 4 / 5

/-- The "Render Andy objects" loop over `tracked_obj_set_`: a draw per anchor
whose tracking state is `AR_TRACKING_STATE_TRACKING`. -/
def andyEvents (o : DrawOracle) : List Nat → List Event
  | [] => []
  | a :: rest =>
    (if o.anchorTracking a = ArTrackingState.tracking then
      [Event.drawAndy a (o.anchorTransform a) (lightIntensity o)]
     else []) ++ andyEvents o rest

/-- The "Update and render planes" loop: for each plane handle, acquire the
trackable, look its color up in `plane_color_map_` (inserting a fresh
`GetRandomPlaneColor` on a miss), draw, release.  Returns the events, the
updated map and the number of `std::rand()` calls consumed. -/
def planeLoop (o : DrawOracle) :
    List Nat → List (Nat × Color) → Nat → List Event × List (Nat × Color) × Nat
  | [], m, k => ([], m, k)
  | p :: rest, m, k =>
    match mapFind m p with
    | some c =>
      let next := planeLoop o rest m k
      ([Event.acquire (Obj.trackable p), Event.drawPlane p c,
        Event.release (Obj.trackable p)] ++ next.1, next.2)
    | none =>
      let c := GetRandomPlaneColor (o.rand k)
      let next := planeLoop o rest (mapInsert m p c) (k + 1)
      ([Event.acquire (Obj.trackable p), Event.drawPlane p c,
        Event.release (Obj.trackable p)] ++ next.1, next.2)

/-- The "Update and render point cloud" tail of `OnDrawFrame`. -/
def pointCloudEvents (o : DrawOracle) : List Event :=
  if o.pcStatus = ArStatus.success then
    [Event.acquire (Obj.pointCloud o.pcId), Event.drawPointCloud o.pcId,
     Event.release (Obj.pointCloud o.pcId)]
  else []

/-- The full event trace of one `OnDrawFrame` call, in source order. -/
def drawFrameTrace (s : AppState) (o : DrawOracle) : List Event :=
  [Event.update o.updateStatus] ++
    (if o.updateStatus ≠ ArStatus.success then [Event.logError 0] else []) ++
    [Event.acquire (Obj.camera o.cameraId), Event.readView o.cameraId,
     Event.readProj o.cameraId, Event.release (Obj.camera o.cameraId)] ++
    [Event.drawBackground] ++
    [Event.acquire (Obj.lightEstimate o.lightId),
     Event.release (Obj.lightEstimate o.lightId)] ++
    andyEvents o s.tracked_obj_set_ ++
    ([Event.acquire (Obj.trackableList o.planeListId)] ++
      (planeLoop o o.planes s.plane_color_map_ 0).1 ++
      [Event.release (Obj.trackableList o.planeListId)]) ++
    pointCloudEvents o

/-- `HelloArApplication::OnDrawFrame`. -/
def OnDrawFrame (s : AppState) (o : DrawOracle) : AppState × List Event :=
  ({ s with plane_color_map_ := (planeLoop o o.planes s.plane_color_map_ 0).2.1,
            plane_count_ := o.planes.length },
   drawFrameTrace s o)

/-! ### The constructor -/

/-- Oracle for the `HelloArApplication` constructor: the SDK responses of the
initialization sequence.  `sessionOk`, `configOk`, `frameOk` say whether
`ArSession_create`, `ArConfig_create`, `ArFrame_create` produce a non-null
object. -/
structure CtorOracle where
  createStatus : ArStatus
  sessionOk : Bool
  configOk : Bool
  supportedStatus : ArStatus
  configureStatus : ArStatus
  frameOk : Bool

/-- The event sequence of a fully successful constructor run. -/
def ctorEvents : List Event :=
  [Event.createSession, Event.createConfig, Event.checkSupported,
   Event.configure, Event.destroyConfig, Event.createFrame]

/-- `HelloArApplication::HelloArApplication`.  `none` models a `CHECK`
failure.

Modelled from the spec: the `CHECK` macro comes from `util.h`, which is not
among the sources; per the spec ("any SDK failure in this sequence aborts via
CHECK"), `CHECK(cond)` aborts the program when `cond` is false, so a failed
check yields no constructed object. -/
def HelloArApplicationCtor (o : CtorOracle) : Option (AppState × List Event) :=
  if o.createStatus = ArStatus.success then
    if o.sessionOk then
      if o.configOk then
        if o.supportedStatus = ArStatus.success then
          if o.configureStatus = ArStatus.success then
            if o.frameOk then
              some ({ ar_session_ := some 1, ar_frame_ := some 1,
                      tracked_obj_set_ := [], plane_color_map_ := [],
                      plane_count_ := 0 }, ctorEvents)
            else none
          else none
        else none
      else none
    else none
  else none

/-! ### Lemmas about the `OnTouched` loop -/

/-- An event acquiring some hit result. -/
def isHitResultAcq (e : Event) : Bool :=
  match e with
  | Event.acquire (Obj.hitResult _) => true
  | _ => false

/-- An event destroying some hit result. -/
def isHitResultRel (e : Event) : Bool :=
  match e with
  | Event.release (Obj.hitResult _) => true
  | _ => false

theorem touchIter_early (o : TouchOracle) (i : Nat) :
    (touchIter o i).2.2 = earlyAtB o i := by
  unfold touchIter earlyAtB
  split_ifs with h1 h2 h3 h4 h5 <;> simp_all

theorem touchIter_inserted (o : TouchOracle) (i : Nat) :
    (touchIter o i).2.1 = if qualifiesB o i then some (o.anchorId i) else none := by
  unfold touchIter qualifiesB
  split_ifs with h1 h2 h3 h4 h5 <;> simp_all

theorem touchIter_balanced (o : TouchOracle) (i : Nat) (ob : Obj)
    (hhr : ∀ j, ob ≠ Obj.hitResult j)
    (hq : qualifiesB o i = true → ob ≠ Obj.anchor (o.anchorId i)) :
    acqCount ob (touchIter o i).1 = relCount ob (touchIter o i).1 := by
  have hhr' := Ne.symm (hhr i)
  unfold touchIter
  split_ifs with h1 h2 h3 h4 h5
  · simp [acqCount, relCount, List.countP_cons]
  · simp [acqCount, relCount, List.countP_cons, hhr']
  · simp [acqCount, relCount, List.countP_cons, hhr']
  · simp [acqCount, relCount, List.countP_cons, hhr']
  · simp [acqCount, relCount, List.countP_cons, hhr']
  · have hq' : Obj.anchor (o.anchorId i) ≠ ob := by
      refine Ne.symm (hq ?_)
      unfold qualifiesB
      simp_all
    simp [acqCount, relCount, List.countP_cons, hhr', hq']

theorem touchIter_listCount (o : TouchOracle) (i m : Nat) :
    acqCount (Obj.hitResultList m) (touchIter o i).1 = 0 ∧
      relCount (Obj.hitResultList m) (touchIter o i).1 = 0 := by
  unfold touchIter
  split_ifs <;> simp [acqCount, relCount, List.countP_cons]

theorem touchIter_hitResultAcq (o : TouchOracle) (i : Nat) :
    (touchIter o i).1.countP isHitResultAcq = if o.createOk i then 1 else 0 := by
  unfold touchIter
  split_ifs with h1 h2 h3 h4 h5 <;> simp_all [isHitResultAcq, List.countP_cons]

theorem touchIter_hitResultRel (o : TouchOracle) (i : Nat) :
    (touchIter o i).1.countP isHitResultRel = if qualifiesB o i then 1 else 0 := by
  unfold touchIter qualifiesB
  split_ifs with h1 h2 h3 h4 h5 <;> simp_all [isHitResultRel, List.countP_cons]

theorem touchLoopFrom_early (o : TouchOracle) (n : Nat) :
    ∀ i, (touchLoopFrom o i n).2.2 = anyEarlyFrom o i n := by
  induction n with
  | zero => intro i; rfl
  | succ n ih =>
    intro i
    unfold touchLoopFrom anyEarlyFrom
    by_cases h : earlyAtB o i = true
    · simp [touchIter_early, h]
    · simp at h
      simp [touchIter_early, h, ih]

theorem touchLoopFrom_inserted (o : TouchOracle) (n : Nat) :
    ∀ i, (touchLoopFrom o i n).2.1 = (insertedIdxFrom o i n).map o.anchorId := by
  induction n with
  | zero => intro i; rfl
  | succ n ih =>
    intro i
    unfold touchLoopFrom insertedIdxFrom
    by_cases h : earlyAtB o i = true
    · simp [touchIter_early, h]
    · simp at h
      by_cases hq : qualifiesB o i = true
      · simp [touchIter_early, touchIter_inserted, h, hq, ih]
      · simp at hq
        simp [touchIter_early, touchIter_inserted, h, hq, ih]

theorem touchLoopFrom_balanced (o : TouchOracle) (n : Nat) :
    ∀ i (ob : Obj), (∀ j, ob ≠ Obj.hitResult j) →
      (∀ a ∈ (touchLoopFrom o i n).2.1, ob ≠ Obj.anchor a) →
      acqCount ob (touchLoopFrom o i n).1 = relCount ob (touchLoopFrom o i n).1 := by
  induction n with
  | zero => intro i ob _ _; rfl
  | succ n ih =>
    intro i ob hhr hanch
    unfold touchLoopFrom
    unfold touchLoopFrom at hanch
    by_cases h : earlyAtB o i = true
    · simp only [touchIter_early, h, if_true]
      simp only [touchIter_early, h, if_true] at hanch
      refine touchIter_balanced o i ob hhr ?_
      intro hq
      have : earlyAtB o i = false := by
        unfold earlyAtB
        unfold qualifiesB at hq
        simp_all
      simp [this] at h
    · simp only [touchIter_early, h, if_false, Bool.false_eq_true]
      simp only [touchIter_early, h, if_false, Bool.false_eq_true] at hanch
      simp only [acqCount, relCount, List.countP_append] at *
      have hstep : acqCount ob (touchIter o i).1 = relCount ob (touchIter o i).1 := by
        refine touchIter_balanced o i ob hhr ?_
        intro hq
        refine hanch (o.anchorId i) ?_
        simp [touchIter_inserted, hq]
      have hrest :
          acqCount ob (touchLoopFrom o (i + 1) n).1 =
            relCount ob (touchLoopFrom o (i + 1) n).1 := by
        refine ih (i + 1) ob hhr ?_
        intro a ha
        refine hanch a ?_
        rcases hx : (touchIter o i).2.1 with _ | b <;> simp [hx, ha]
      simp only [acqCount, relCount] at hstep hrest
      omega

theorem acqCount_append (ob : Obj) (l1 l2 : List Event) :
    acqCount ob (l1 ++ l2) = acqCount ob l1 + acqCount ob l2 := by
  simp [acqCount, List.countP_append]

theorem relCount_append (ob : Obj) (l1 l2 : List Event) :
    relCount ob (l1 ++ l2) = relCount ob l1 + relCount ob l2 := by
  simp [relCount, List.countP_append]

theorem early_qualifies_false (o : TouchOracle) (i : Nat)
    (h : earlyAtB o i = true) : qualifiesB o i = false := by
  unfold earlyAtB at h
  unfold qualifiesB
  cases hc : o.createOk i <;> simp [hc] at h ⊢
  simp [h.2]

theorem createOk_of_not_early (o : TouchOracle) (i : Nat)
    (h : earlyAtB o i = false) : o.createOk i = true := by
  unfold earlyAtB at h
  cases hc : o.createOk i <;> simp [hc] at h ⊢

theorem touchLoopFrom_listCount (o : TouchOracle) (n : Nat) :
    ∀ i m, acqCount (Obj.hitResultList m) (touchLoopFrom o i n).1 = 0 ∧
      relCount (Obj.hitResultList m) (touchLoopFrom o i n).1 = 0 := by
  induction n with
  | zero => intro i m; exact ⟨rfl, rfl⟩
  | succ n ih =>
    intro i m
    unfold touchLoopFrom
    by_cases h : earlyAtB o i = true
    · simp only [touchIter_early, h, if_true]
      exact touchIter_listCount o i m
    · simp only [touchIter_early, h, Bool.false_eq_true, if_false]
      rw [acqCount_append, relCount_append]
      have h1 := touchIter_listCount o i m
      have h2 := ih (i + 1) m
      omega

theorem touchLoopFrom_hitResultAcq (o : TouchOracle) (n : Nat) :
    ∀ i, (touchLoopFrom o i n).1.countP isHitResultAcq = hitResultAcqSpecFrom o i n := by
  induction n with
  | zero => intro i; rfl
  | succ n ih =>
    intro i
    unfold touchLoopFrom hitResultAcqSpecFrom
    by_cases h : earlyAtB o i = true
    · simp only [touchIter_early, h, if_true]
      exact touchIter_hitResultAcq o i
    · simp only [touchIter_early, h, Bool.false_eq_true, if_false]
      rw [List.countP_append, touchIter_hitResultAcq, ih (i + 1),
        createOk_of_not_early o i (by simp_all)]
      simp

theorem touchLoopFrom_hitResultRel (o : TouchOracle) (n : Nat) :
    ∀ i, (touchLoopFrom o i n).1.countP isHitResultRel =
      (insertedIdxFrom o i n).length := by
  induction n with
  | zero => intro i; rfl
  | succ n ih =>
    intro i
    unfold touchLoopFrom insertedIdxFrom
    by_cases h : earlyAtB o i = true
    · simp only [touchIter_early, h, if_true]
      rw [touchIter_hitResultRel, early_qualifies_false o i h]
      simp
    · simp only [touchIter_early, h, Bool.false_eq_true, if_false]
      rw [List.countP_append, touchIter_hitResultRel, ih (i + 1)]
      by_cases hq : qualifiesB o i = true
      · simp [hq]
        omega
      · simp [hq]

theorem mem_insertedIdxFrom (o : TouchOracle) (n : Nat) :
    ∀ i j, j ∈ insertedIdxFrom o i n ↔
      i ≤ j ∧ j < i + n ∧ (∀ k, i ≤ k → k < j → earlyAtB o k = false) ∧
        qualifiesB o j = true := by
  induction n with
  | zero =>
    intro i j
    unfold insertedIdxFrom
    simp only [List.not_mem_nil, false_iff]
    rintro ⟨h1, h2, -, -⟩
    omega
  | succ n ih =>
    intro i j
    unfold insertedIdxFrom
    by_cases h : earlyAtB o i = true
    · simp only [h, if_true, List.not_mem_nil, false_iff]
      rintro ⟨h1, h2, hno, hq⟩
      rcases Nat.eq_or_lt_of_le h1 with heq | hlt
      · subst heq
        rw [early_qualifies_false o i h] at hq
        exact Bool.false_ne_true hq
      · rw [hno i (Nat.le_refl i) hlt] at h
        exact Bool.false_ne_true h
    · have hfalse : earlyAtB o i = false := by simp_all
      simp only [h, if_false, List.mem_append, ih (i + 1) j, Bool.false_eq_true]
      constructor
      · rintro (hmem | ⟨h1, h2, hno, hq⟩)
        · have : qualifiesB o i = true ∧ j = i := by
            by_cases hq : qualifiesB o i = true <;> simp [hq] at hmem
            exact ⟨hq, hmem⟩
          refine ⟨by omega, by omega, ?_, this.2 ▸ this.1⟩
          intro k hk1 hk2
          omega
        · refine ⟨by omega, by omega, ?_, hq⟩
          intro k hk1 hk2
          rcases Nat.eq_or_lt_of_le hk1 with heq | hlt
          · rw [← heq]; exact hfalse
          · exact hno k hlt hk2
      · rintro ⟨h1, h2, hno, hq⟩
        rcases Nat.eq_or_lt_of_le h1 with heq | hlt
        · left
          subst heq
          rw [if_pos hq]
          simp
        · right
          refine ⟨by omega, by omega, ?_, hq⟩
          intro k hk1 hk2
          exact hno k (by omega) hk2

theorem mem_insertedIdx (o : TouchOracle) (j : Nat) :
    j ∈ insertedIdx o ↔ processedB o j = true ∧ qualifiesB o j = true := by
  unfold insertedIdx
  rw [mem_insertedIdxFrom]
  unfold processedB
  constructor
  · rintro ⟨-, h2, hno, hq⟩
    refine ⟨?_, hq⟩
    simp only [Bool.and_eq_true, decide_eq_true_eq, List.all_eq_true,
      List.mem_range, Bool.not_eq_true']
    exact ⟨by omega, fun k hk => hno k (Nat.zero_le k) hk⟩
  · rintro ⟨hp, hq⟩
    simp only [Bool.and_eq_true, decide_eq_true_eq, List.all_eq_true,
      List.mem_range, Bool.not_eq_true'] at hp
    exact ⟨Nat.zero_le j, by omega, fun k _ hk => hp.2 k hk, hq⟩

theorem insertedIdxFrom_length (o : TouchOracle) (n : Nat) :
    ∀ i, (insertedIdxFrom o i n).length ≤ n := by
  induction n with
  | zero => intro i; simp [insertedIdxFrom]
  | succ n ih =>
    intro i
    unfold insertedIdxFrom
    by_cases h : earlyAtB o i = true
    · simp [h]
    · have hrec := ih (i + 1)
      by_cases hq : qualifiesB o i = true <;> simp [h, hq] <;> omega

/-! ### `OnTouched` as a whole -/

theorem mem_setInsert (s : List Nat) (b a : Nat) :
    a ∈ setInsert s b ↔ a ∈ s ∨ a = b := by
  unfold setInsert
  by_cases h : b ∈ s
  · rw [if_pos h]
    constructor
    · exact Or.inl
    · rintro (ha | rfl)
      · exact ha
      · exact h
  · rw [if_neg h]
    simp

theorem mem_foldl_setInsert (l : List Nat) :
    ∀ s a, a ∈ l.foldl setInsert s ↔ a ∈ s ∨ a ∈ l := by
  induction l with
  | nil => simp
  | cons b l ih =>
    intro s a
    rw [List.foldl_cons, ih, mem_setInsert, List.mem_cons]
    tauto

theorem OnTouched_eq (s : AppState) (o : TouchOracle)
    (hf : s.ar_frame_ ≠ none) (hs : s.ar_session_ ≠ none) :
    OnTouched s o =
      ({ s with tracked_obj_set_ :=
          ((insertedIdx o).map o.anchorId).foldl setInsert s.tracked_obj_set_ },
       [Event.acquire (Obj.hitResultList 0)] ++ (touchLoopFrom o 0 o.hitCount).1 ++
         (if anyEarlyFrom o 0 o.hitCount then []
          else [Event.release (Obj.hitResultList 0)])) := by
  unfold OnTouched
  rw [if_pos ⟨hf, hs⟩]
  show ({ s with tracked_obj_set_ := _ }, _) = _
  rw [touchLoopFrom_early, touchLoopFrom_inserted]
  rfl

/-! ### Concrete states and oracles used as witnesses and counterexamples -/

/-- A state whose session and frame pointers are non-null, with no tracked
anchors and no plane colors. -/
def sAlive : AppState :=
  { ar_session_ := some 1, ar_frame_ := some 1, tracked_obj_set_ := [],
    plane_color_map_ := [], plane_count_ := 0 }

/-- A state whose frame pointer is null. -/
def sNullFrame : AppState :=
  { ar_session_ := some 1, ar_frame_ := none, tracked_obj_set_ := [7],
    plane_color_map_ := [], plane_count_ := 3 }

/-- Touch oracle: a single hit whose trackable is a point, not a plane. -/
def oPointHit : TouchOracle :=
  { hitCount := 1, createOk := fun _ => true,
    trackableType := fun _ => ArTrackableType.point,
    trackableId := fun i => 50 + i, inPolygon := fun _ => true,
    anchorStatus := fun _ => ArStatus.success, anchorId := fun i => 100 + i,
    anchorTracking := fun _ => ArTrackingState.tracking }

/-- Touch oracle: two hits that both fully qualify for anchor insertion. -/
def oTwoQualifying : TouchOracle :=
  { hitCount := 2, createOk := fun _ => true,
    trackableType := fun _ => ArTrackableType.plane,
    trackableId := fun i => 50 + i, inPolygon := fun _ => true,
    anchorStatus := fun _ => ArStatus.success, anchorId := fun i => 100 + i,
    anchorTracking := fun _ => ArTrackingState.tracking }

/-- Touch oracle: two in-polygon plane hits; anchor acquisition fails with an
error for hit 0 and succeeds for hit 1. -/
def oEarlyThenGood : TouchOracle :=
  { hitCount := 2, createOk := fun _ => true,
    trackableType := fun _ => ArTrackableType.plane,
    trackableId := fun i => 50 + i, inPolygon := fun _ => true,
    anchorStatus := fun i => if i = 0 then ArStatus.error 1 else ArStatus.success,
    anchorId := fun i => 100 + i,
    anchorTracking := fun _ => ArTrackingState.tracking }

/-- The discipline claimed by C1 for one invocation with trace `tr`, where
`inserted` lists the anchors inserted into `tracked_obj_set_`: every tracking
object acquired or created is released or destroyed exactly once, the sole
exception being the inserted anchors. -/
def releasedOnceExceptAnchors (inserted : List Nat) (tr : List Event) : Prop :=
  ∀ ob : Obj, (∀ a ∈ inserted, ob ≠ Obj.anchor a) → acqCount ob tr = relCount ob tr

/-! ### Claim theorems on `OnTouched` -/

/-- C9: if `ar_frame_` or `ar_session_` is null, `OnTouched` performs no SDK
calls (its trace is empty) and leaves the whole application state — in
particular `tracked_obj_set_` and `plane_color_map_` — unchanged. -/
theorem claim_C9_touch_null_guard (s : AppState) (o : TouchOracle)
    (h : s.ar_frame_ = none ∨ s.ar_session_ = none) :
    OnTouched s o = (s, []) := by
  unfold OnTouched
  rcases h with h | h <;> simp [h]

theorem claim_C9_witness :
    OnTouched sNullFrame oTwoQualifying = (sNullFrame, []) :=
  claim_C9_touch_null_guard _ _ (Or.inl rfl)

/-- C1 counterexample: in the `OnTouched` call on `oPointHit` (one hit whose
trackable is not a plane), the created hit result is never destroyed even
though it is not an inserted anchor, so the claimed acquire/release discipline
fails at this concrete input. -/
theorem claim_C1_counterexample :
    ¬ releasedOnceExceptAnchors
        ((insertedIdx oPointHit).map oPointHit.anchorId)
        (OnTouched sAlive oPointHit).2 := by
  intro h
  have h0 := h (Obj.hitResult 0) (by decide)
  revert h0
  decide

/-- C2 counterexample: under `oEarlyThenGood`, hit result 1's trackable is a
plane, its pose is in the polygon, its anchor would be acquired with
`AR_SUCCESS` in tracking state — yet no anchor for it is inserted, because the
anchor-acquisition failure at hit 0 makes `OnTouched` return early. -/
theorem claim_C2_counterexample :
    oEarlyThenGood.trackableType 1 = ArTrackableType.plane ∧
    oEarlyThenGood.inPolygon 1 = true ∧
    oEarlyThenGood.anchorStatus 1 = ArStatus.success ∧
    oEarlyThenGood.anchorTracking 1 = ArTrackingState.tracking ∧
    oEarlyThenGood.anchorId 1 ∉ (OnTouched sAlive oEarlyThenGood).1.tracked_obj_set_ := by
  decide

/-- C2 (amended): with non-null session and frame, and anchor handles fresh
and distinct, an anchor is inserted into `tracked_obj_set_` for hit result `i`
iff the loop reaches `i` without an earlier early return (`processedB`) and
`i` qualifies (`qualifiesB`: hit-result creation succeeds, the trackable is a
plane, the hit pose is in the polygon, the anchor is acquired with
`AR_SUCCESS`, and its tracking state is `AR_TRACKING_STATE_TRACKING`). -/
theorem claim_C2_amended (s : AppState) (o : TouchOracle)
    (hf : s.ar_frame_ ≠ none) (hs : s.ar_session_ ≠ none)
    (hfresh : ∀ i, i < o.hitCount → o.anchorId i ∉ s.tracked_obj_set_)
    (hinj : ∀ i j, i < o.hitCount → j < o.hitCount → o.anchorId i = o.anchorId j → i = j)
    (i : Nat) (hi : i < o.hitCount) :
    o.anchorId i ∈ (OnTouched s o).1.tracked_obj_set_ ↔
      processedB o i = true ∧ qualifiesB o i = true := by
  rw [OnTouched_eq s o hf hs]
  show o.anchorId i ∈ ((insertedIdx o).map o.anchorId).foldl setInsert s.tracked_obj_set_ ↔ _
  rw [mem_foldl_setInsert]
  constructor
  · rintro (hmem | hmem)
    · exact absurd hmem (hfresh i hi)
    · rcases List.mem_map.mp hmem with ⟨j, hj, heq⟩
      have hj' := (mem_insertedIdx o j).mp hj
      have hjlt : j < o.hitCount := by
        have hp := hj'.1
        unfold processedB at hp
        simp only [Bool.and_eq_true, decide_eq_true_eq] at hp
        exact hp.1
      have hji : j = i := hinj j i hjlt hi heq
      subst hji
      exact hj'
  · rintro ⟨hp, hq⟩
    exact Or.inr (List.mem_map.mpr ⟨i, (mem_insertedIdx o i).mpr ⟨hp, hq⟩, rfl⟩)

theorem claim_C2_amended_witness :
    oTwoQualifying.anchorId 0 ∈ (OnTouched sAlive oTwoQualifying).1.tracked_obj_set_ ↔
      processedB oTwoQualifying 0 = true ∧ qualifiesB oTwoQualifying 0 = true :=
  claim_C2_amended sAlive oTwoQualifying (by simp [sAlive]) (by simp [sAlive])
    (fun i _ => List.not_mem_nil _)
    (fun i j _ _ h => by
      have : 100 + i = 100 + j := h
      omega)
    0 (by decide)

/-- C3 counterexample: under `oTwoQualifying`, a single `OnTouched` call grows
`tracked_obj_set_` by two anchors — the loop has no `break`, so "at most one
anchor per tap" fails at this concrete input. -/
theorem claim_C3_counterexample :
    ¬ ((OnTouched sAlive oTwoQualifying).1.tracked_obj_set_.length ≤
        sAlive.tracked_obj_set_.length + 1) := by
  decide

/-- C3 (amended): a call to `OnTouched` inserts one anchor for every
qualifying hit result the loop reaches (the loop does not stop after the
first), so a single tap can add up to `hitCount` anchors, not at most one. -/
theorem claim_C3_amended (s : AppState) (o : TouchOracle)
    (hf : s.ar_frame_ ≠ none) (hs : s.ar_session_ ≠ none) :
    (OnTouched s o).1.tracked_obj_set_ =
      ((insertedIdx o).map o.anchorId).foldl setInsert s.tracked_obj_set_ ∧
    (∀ j ∈ insertedIdx o, processedB o j = true ∧ qualifiesB o j = true) ∧
    (insertedIdx o).length ≤ o.hitCount := by
  refine ⟨?_, ?_, insertedIdxFrom_length o o.hitCount 0⟩
  · rw [OnTouched_eq s o hf hs]
  · intro j hj
    exact (mem_insertedIdx o j).mp hj

theorem claim_C3_amended_witness :
    (OnTouched sAlive oTwoQualifying).1.tracked_obj_set_ =
      ((insertedIdx oTwoQualifying).map oTwoQualifying.anchorId).foldl setInsert
        sAlive.tracked_obj_set_ ∧
    (∀ j ∈ insertedIdx oTwoQualifying,
      processedB oTwoQualifying j = true ∧ qualifiesB oTwoQualifying j = true) ∧
    (insertedIdx oTwoQualifying).length ≤ oTwoQualifying.hitCount :=
  claim_C3_amended sAlive oTwoQualifying (by simp [sAlive]) (by simp [sAlive])

/-! ### Counting lemmas for the `OnDrawFrame` segments -/

theorem andyEvents_counts (o : DrawOracle) :
    ∀ (l : List Nat) (ob : Obj),
      acqCount ob (andyEvents o l) = 0 ∧ relCount ob (andyEvents o l) = 0 := by
  intro l
  induction l with
  | nil => intro ob; exact ⟨rfl, rfl⟩
  | cons a rest ih =>
    intro ob
    unfold andyEvents
    rw [acqCount_append, relCount_append]
    have h := ih ob
    have h1 : acqCount ob (if o.anchorTracking a = ArTrackingState.tracking then
        [Event.drawAndy a (o.anchorTransform a) (lightIntensity o)] else []) = 0 := by
      split <;> simp [acqCount]
    have h2 : relCount ob (if o.anchorTracking a = ArTrackingState.tracking then
        [Event.drawAndy a (o.anchorTransform a) (lightIntensity o)] else []) = 0 := by
      split <;> simp [relCount]
    omega

theorem planeLoop_balanced (o : DrawOracle) :
    ∀ (ps : List Nat) (m : List (Nat × Color)) (k : Nat) (ob : Obj),
      acqCount ob (planeLoop o ps m k).1 = relCount ob (planeLoop o ps m k).1 := by
  intro ps
  induction ps with
  | nil => intro m k ob; rfl
  | cons p rest ih =>
    intro m k ob
    unfold planeLoop
    have hseg : ∀ c : Color,
        acqCount ob [Event.acquire (Obj.trackable p), Event.drawPlane p c,
          Event.release (Obj.trackable p)] =
        relCount ob [Event.acquire (Obj.trackable p), Event.drawPlane p c,
          Event.release (Obj.trackable p)] := by
      intro c
      simp [acqCount, relCount, List.countP_cons]
    cases hfind : mapFind m p
    · simp only [hfind]
      rw [acqCount_append, relCount_append, hseg, ih]
    · simp only [hfind]
      rw [acqCount_append, relCount_append, hseg, ih]

theorem planeLoop_count_other (o : DrawOracle) :
    ∀ (ps : List Nat) (m : List (Nat × Color)) (k : Nat) (ob : Obj),
      (∀ p, ob ≠ Obj.trackable p) →
      acqCount ob (planeLoop o ps m k).1 = 0 ∧ relCount ob (planeLoop o ps m k).1 = 0 := by
  intro ps
  induction ps with
  | nil => intro m k ob _; exact ⟨rfl, rfl⟩
  | cons p rest ih =>
    intro m k ob hob
    unfold planeLoop
    have hpne := Ne.symm (hob p)
    have hseg0 : ∀ c : Color,
        acqCount ob [Event.acquire (Obj.trackable p), Event.drawPlane p c,
          Event.release (Obj.trackable p)] = 0 ∧
        relCount ob [Event.acquire (Obj.trackable p), Event.drawPlane p c,
          Event.release (Obj.trackable p)] = 0 := by
      intro c
      constructor <;> simp [acqCount, relCount, List.countP_cons, hpne]
    rcases hfind : mapFind m p with _ | c0
    · simp only [hfind]
      rw [acqCount_append, relCount_append]
      have h := ih (mapInsert m p (GetRandomPlaneColor (o.rand k))) (k + 1) ob hob
      have h0 := hseg0 (GetRandomPlaneColor (o.rand k))
      omega
    · simp only [hfind]
      rw [acqCount_append, relCount_append]
      have h := ih m k ob hob
      have h0 := hseg0 c0
      omega

theorem pointCloudEvents_balanced (o : DrawOracle) (ob : Obj) :
    acqCount ob (pointCloudEvents o) = relCount ob (pointCloudEvents o) := by
  unfold pointCloudEvents
  split <;> simp [acqCount, relCount, List.countP_cons]

theorem OnDrawFrame_balanced (s : AppState) (o : DrawOracle) (ob : Obj) :
    acqCount ob (OnDrawFrame s o).2 = relCount ob (OnDrawFrame s o).2 := by
  have hupd : acqCount ob [Event.update o.updateStatus] = 0 ∧
      relCount ob [Event.update o.updateStatus] = 0 := by
    simp [acqCount, relCount]
  have hlog :
      acqCount ob (if o.updateStatus ≠ ArStatus.success then [Event.logError 0] else []) = 0 ∧
      relCount ob (if o.updateStatus ≠ ArStatus.success then [Event.logError 0] else []) = 0 := by
    constructor <;> split <;> simp [acqCount, relCount]
  have hcam :
      acqCount ob [Event.acquire (Obj.camera o.cameraId), Event.readView o.cameraId,
        Event.readProj o.cameraId, Event.release (Obj.camera o.cameraId)] =
      relCount ob [Event.acquire (Obj.camera o.cameraId), Event.readView o.cameraId,
        Event.readProj o.cameraId, Event.release (Obj.camera o.cameraId)] := by
    simp [acqCount, relCount, List.countP_cons]
  have hbg : acqCount ob [Event.drawBackground] = 0 ∧
      relCount ob [Event.drawBackground] = 0 := by
    simp [acqCount, relCount]
  have hlight :
      acqCount ob [Event.acquire (Obj.lightEstimate o.lightId),
        Event.release (Obj.lightEstimate o.lightId)] =
      relCount ob [Event.acquire (Obj.lightEstimate o.lightId),
        Event.release (Obj.lightEstimate o.lightId)] := by
    simp [acqCount, relCount, List.countP_cons]
  have handy := andyEvents_counts o s.tracked_obj_set_ ob
  have hloop := planeLoop_balanced o o.planes s.plane_color_map_ 0 ob
  have hlista : acqCount ob [Event.acquire (Obj.trackableList o.planeListId)] =
      relCount ob [Event.release (Obj.trackableList o.planeListId)] := by
    simp [acqCount, relCount, List.countP_cons]
  have hlistb : relCount ob [Event.acquire (Obj.trackableList o.planeListId)] = 0 ∧
      acqCount ob [Event.release (Obj.trackableList o.planeListId)] = 0 := by
    constructor <;> simp [acqCount, relCount, List.countP_cons]
  have hpc := pointCloudEvents_balanced o ob
  show acqCount ob (drawFrameTrace s o) = relCount ob (drawFrameTrace s o)
  unfold drawFrameTrace
  simp only [acqCount_append, relCount_append]
  omega

/-- A concrete draw oracle exercising every segment of `OnDrawFrame`. -/
def oDrawBasic : DrawOracle :=
  { updateStatus := ArStatus.success, cameraId := 1, lightId := 2,
    lightState := ArLightEstimateState.valid, pixelIntensity := 1 / 2,
    anchorTracking := fun _ => ArTrackingState.tracking,
    anchorTransform := fun a => a, planeListId := 3, planes := [10, 11],
    rand := fun k => k, pcStatus := ArStatus.success, pcId := 4 }

/-- C1 (amended): in `OnDrawFrame` every tracking object acquired or created
is released or destroyed exactly once.  In `OnTouched` (with non-null session
and frame) the same holds for trackables, poses and non-inserted anchors, but
the exceptions are wider than the claim states: besides the anchors inserted
into `tracked_obj_set_` (retained deliberately), a hit result is destroyed
only on the iteration that inserts its anchor (`countP` equations), and the
hit-result list is destroyed only when the loop finishes without an early
return. -/
theorem claim_C1_amended (sd : AppState) (od : DrawOracle) (ob : Obj)
    (st : AppState) (ot : TouchOracle)
    (hf : st.ar_frame_ ≠ none) (hs : st.ar_session_ ≠ none)
    (hanch : ∀ a ∈ (insertedIdx ot).map ot.anchorId, ob ≠ Obj.anchor a)
    (hhr : ∀ i, ob ≠ Obj.hitResult i) (hlist : ob ≠ Obj.hitResultList 0) :
    acqCount ob (OnDrawFrame sd od).2 = relCount ob (OnDrawFrame sd od).2 ∧
    acqCount ob (OnTouched st ot).2 = relCount ob (OnTouched st ot).2 ∧
    (OnTouched st ot).2.countP isHitResultRel = (insertedIdx ot).length ∧
    (OnTouched st ot).2.countP isHitResultAcq = hitResultAcqSpecFrom ot 0 ot.hitCount ∧
    acqCount (Obj.hitResultList 0) (OnTouched st ot).2 = 1 ∧
    relCount (Obj.hitResultList 0) (OnTouched st ot).2 =
      (if anyEarlyFrom ot 0 ot.hitCount then 0 else 1) := by
  have htr := OnTouched_eq st ot hf hs
  refine ⟨OnDrawFrame_balanced sd od ob, ?_, ?_, ?_, ?_, ?_⟩
  · rw [htr]
    show acqCount ob ([Event.acquire (Obj.hitResultList 0)] ++ _ ++ _) =
      relCount ob ([Event.acquire (Obj.hitResultList 0)] ++ _ ++ _)
    rw [acqCount_append, acqCount_append, relCount_append, relCount_append]
    have h1 : acqCount ob [Event.acquire (Obj.hitResultList 0)] = 0 := by
      simp [acqCount, Ne.symm hlist]
    have h2 : relCount ob [Event.acquire (Obj.hitResultList 0)] = 0 := by
      simp [relCount]
    have hloop : acqCount ob (touchLoopFrom ot 0 ot.hitCount).1 =
        relCount ob (touchLoopFrom ot 0 ot.hitCount).1 := by
      refine touchLoopFrom_balanced ot ot.hitCount 0 ob hhr ?_
      intro a ha
      refine hanch a ?_
      rw [touchLoopFrom_inserted] at ha
      exact ha
    have h3 : acqCount ob (if anyEarlyFrom ot 0 ot.hitCount then []
        else [Event.release (Obj.hitResultList 0)]) = 0 := by
      split <;> simp [acqCount]
    have h4 : relCount ob (if anyEarlyFrom ot 0 ot.hitCount then []
        else [Event.release (Obj.hitResultList 0)]) = 0 := by
      split <;> simp [relCount, Ne.symm hlist]
    omega
  · rw [htr]
    show List.countP isHitResultRel
        ([Event.acquire (Obj.hitResultList 0)] ++ _ ++ _) = _
    rw [List.countP_append, List.countP_append, touchLoopFrom_hitResultRel]
    have h1 : List.countP isHitResultRel [Event.acquire (Obj.hitResultList 0)] = 0 := by
      simp [isHitResultRel]
    have h2 : List.countP isHitResultRel (if anyEarlyFrom ot 0 ot.hitCount then []
        else [Event.release (Obj.hitResultList 0)]) = 0 := by
      split <;> simp [isHitResultRel]
    unfold insertedIdx
    omega
  · rw [htr]
    show List.countP isHitResultAcq
        ([Event.acquire (Obj.hitResultList 0)] ++ _ ++ _) = _
    rw [List.countP_append, List.countP_append, touchLoopFrom_hitResultAcq]
    have h1 : List.countP isHitResultAcq [Event.acquire (Obj.hitResultList 0)] = 0 := by
      simp [isHitResultAcq]
    have h2 : List.countP isHitResultAcq (if anyEarlyFrom ot 0 ot.hitCount then []
        else [Event.release (Obj.hitResultList 0)]) = 0 := by
      split <;> simp [isHitResultAcq]
    omega
  · rw [htr]
    show acqCount (Obj.hitResultList 0)
        ([Event.acquire (Obj.hitResultList 0)] ++ _ ++ _) = 1
    rw [acqCount_append, acqCount_append]
    have h1 : acqCount (Obj.hitResultList 0) [Event.acquire (Obj.hitResultList 0)] = 1 := by
      simp [acqCount]
    have h2 := (touchLoopFrom_listCount ot ot.hitCount 0 0).1
    have h3 : acqCount (Obj.hitResultList 0) (if anyEarlyFrom ot 0 ot.hitCount then []
        else [Event.release (Obj.hitResultList 0)]) = 0 := by
      split <;> simp [acqCount]
    omega
  · rw [htr]
    show relCount (Obj.hitResultList 0)
        ([Event.acquire (Obj.hitResultList 0)] ++ _ ++ _) = _
    rw [relCount_append, relCount_append]
    have h1 : relCount (Obj.hitResultList 0) [Event.acquire (Obj.hitResultList 0)] = 0 := by
      simp [relCount]
    have h2 := (touchLoopFrom_listCount ot ot.hitCount 0 0).2
    by_cases he : anyEarlyFrom ot 0 ot.hitCount = true
    · rw [he]
      have h3 : relCount (Obj.hitResultList 0)
          (if (true : Bool) then [] else [Event.release (Obj.hitResultList 0)]) = 0 := by
        simp [relCount]
      simp only [if_true] at h3 ⊢
      omega
    · simp only [Bool.not_eq_true] at he
      rw [he]
      have h3 : relCount (Obj.hitResultList 0)
          (if (false : Bool) then [] else [Event.release (Obj.hitResultList 0)]) = 1 := by
        simp [relCount]
      simp only [Bool.false_eq_true, if_false] at h3 ⊢
      omega

theorem claim_C1_amended_witness :
    acqCount (Obj.trackable 10) (OnDrawFrame sAlive oDrawBasic).2 =
      relCount (Obj.trackable 10) (OnDrawFrame sAlive oDrawBasic).2 ∧
    acqCount (Obj.trackable 10) (OnTouched sAlive oPointHit).2 =
      relCount (Obj.trackable 10) (OnTouched sAlive oPointHit).2 ∧
    (OnTouched sAlive oPointHit).2.countP isHitResultRel = (insertedIdx oPointHit).length ∧
    (OnTouched sAlive oPointHit).2.countP isHitResultAcq =
      hitResultAcqSpecFrom oPointHit 0 oPointHit.hitCount ∧
    acqCount (Obj.hitResultList 0) (OnTouched sAlive oPointHit).2 = 1 ∧
    relCount (Obj.hitResultList 0) (OnTouched sAlive oPointHit).2 =
      (if anyEarlyFrom oPointHit 0 oPointHit.hitCount then 0 else 1) :=
  claim_C1_amended sAlive oDrawBasic (Obj.trackable 10) sAlive oPointHit
    (by simp [sAlive]) (by simp [sAlive]) (by decide)
    (fun i h => by cases h) (by decide)

/-! ### Generic segment-content lemmas -/

theorem andyEvents_countP_zero (o : DrawOracle) (p : Event → Bool)
    (hp : ∀ a t ι, p (Event.drawAndy a t ι) = false) :
    ∀ l, (andyEvents o l).countP p = 0 := by
  intro l
  induction l with
  | nil => rfl
  | cons a rest ih =>
    unfold andyEvents
    rw [List.countP_append, ih]
    split <;> simp [List.countP_cons, hp]

theorem planeLoop_countP_zero (o : DrawOracle) (p : Event → Bool)
    (hp1 : ∀ q, p (Event.acquire (Obj.trackable q)) = false)
    (hp2 : ∀ q c, p (Event.drawPlane q c) = false)
    (hp3 : ∀ q, p (Event.release (Obj.trackable q)) = false) :
    ∀ ps m k, ((planeLoop o ps m k).1).countP p = 0 := by
  intro ps
  induction ps with
  | nil => intro m k; rfl
  | cons q rest ih =>
    intro m k
    unfold planeLoop
    rcases hfind : mapFind m q with _ | c0 <;> simp only [hfind] <;>
      rw [List.countP_append] <;>
      simp [List.countP_cons, hp1, hp2, hp3, ih]

/-! ### Point cloud (C5) -/

/-- An event that acquires, draws or releases a point cloud. -/
def isPointCloudEvent (e : Event) : Bool :=
  match e with
  | Event.acquire (Obj.pointCloud _) => true
  | Event.release (Obj.pointCloud _) => true
  | Event.drawPointCloud _ => true
  | _ => false

/-- The part of the `OnDrawFrame` trace before the point-cloud block. -/
def drawFramePreTrace (s : AppState) (o : DrawOracle) : List Event :=
  [Event.update o.updateStatus] ++
    (if o.updateStatus ≠ ArStatus.success then [Event.logError 0] else []) ++
    [Event.acquire (Obj.camera o.cameraId), Event.readView o.cameraId,
     Event.readProj o.cameraId, Event.release (Obj.camera o.cameraId)] ++
    [Event.drawBackground] ++
    [Event.acquire (Obj.lightEstimate o.lightId),
     Event.release (Obj.lightEstimate o.lightId)] ++
    andyEvents o s.tracked_obj_set_ ++
    ([Event.acquire (Obj.trackableList o.planeListId)] ++
      (planeLoop o o.planes s.plane_color_map_ 0).1 ++
      [Event.release (Obj.trackableList o.planeListId)])

theorem OnDrawFrame_state (s : AppState) (o : DrawOracle) :
    (OnDrawFrame s o).1 =
      { s with
          plane_color_map_ := (planeLoop o o.planes s.plane_color_map_ 0).2.1,
          plane_count_ := o.planes.length } := rfl

theorem drawFrameTrace_split (s : AppState) (o : DrawOracle) :
    (OnDrawFrame s o).2 = drawFramePreTrace s o ++ pointCloudEvents o := by
  show drawFrameTrace s o = _
  unfold drawFrameTrace drawFramePreTrace
  simp [List.append_assoc]

theorem drawFramePreTrace_no_pc (s : AppState) (o : DrawOracle) :
    (drawFramePreTrace s o).countP isPointCloudEvent = 0 := by
  unfold drawFramePreTrace
  simp only [List.countP_append]
  rw [andyEvents_countP_zero o isPointCloudEvent (fun _ _ _ => rfl),
    planeLoop_countP_zero o isPointCloudEvent (fun _ => rfl) (fun _ _ => rfl) (fun _ => rfl)]
  split <;> simp [List.countP_cons, isPointCloudEvent]

/-- C5: the point cloud is acquired, drawn and then released — as the final
three events of the frame — iff `ArFrame_acquirePointCloud` returns
`AR_SUCCESS`; on any other status the trace contains no point-cloud event at
all, and the rest of the frame is unchanged (`drawFramePreTrace`, which never
contains a point-cloud event). -/
theorem claim_C5_point_cloud (s : AppState) (o : DrawOracle) :
    (o.pcStatus = ArStatus.success →
      (OnDrawFrame s o).2 = drawFramePreTrace s o ++
        [Event.acquire (Obj.pointCloud o.pcId), Event.drawPointCloud o.pcId,
         Event.release (Obj.pointCloud o.pcId)]) ∧
    (o.pcStatus ≠ ArStatus.success →
      (OnDrawFrame s o).2 = drawFramePreTrace s o) ∧
    (drawFramePreTrace s o).countP isPointCloudEvent = 0 := by
  refine ⟨?_, ?_, drawFramePreTrace_no_pc s o⟩
  · intro h
    rw [drawFrameTrace_split]
    unfold pointCloudEvents
    rw [if_pos h]
  · intro h
    rw [drawFrameTrace_split]
    unfold pointCloudEvents
    rw [if_neg h]
    simp

theorem claim_C5_witness :
    (OnDrawFrame sAlive oDrawBasic).2 = drawFramePreTrace sAlive oDrawBasic ++
      [Event.acquire (Obj.pointCloud oDrawBasic.pcId),
       Event.drawPointCloud oDrawBasic.pcId,
       Event.release (Obj.pointCloud oDrawBasic.pcId)] :=
  (claim_C5_point_cloud sAlive oDrawBasic).1 rfl

/-! ### Andy draws (C7) -/

/-- An Andy draw event. -/
def isDrawAndy (e : Event) : Bool :=
  match e with
  | Event.drawAndy _ _ _ => true
  | _ => false

theorem andyEvents_mem (o : DrawOracle) :
    ∀ (l : List Nat) (a t : Nat) (ι : ℚ),
      Event.drawAndy a t ι ∈ andyEvents o l ↔
        a ∈ l ∧ o.anchorTracking a = ArTrackingState.tracking ∧
          t = o.anchorTransform a ∧ ι = lightIntensity o := by
  intro l
  induction l with
  | nil => intro a t ι; simp [andyEvents]
  | cons b rest ih =>
    intro a t ι
    unfold andyEvents
    rw [List.mem_append]
    constructor
    · intro h
      rcases h with h | h
      · by_cases hb : o.anchorTracking b = ArTrackingState.tracking
        · rw [if_pos hb, List.mem_singleton] at h
          injection h with h1 h2 h3
          subst h1
          exact ⟨List.mem_cons_self _ _, hb, h2, h3⟩
        · rw [if_neg hb] at h
          exact absurd h (List.not_mem_nil _)
      · have h2 := (ih a t ι).mp h
        exact ⟨List.mem_cons_of_mem _ h2.1, h2.2⟩
    · rintro ⟨hmem, htr, ht, hι⟩
      rcases List.mem_cons.mp hmem with heq | hmem2
      · subst heq
        left
        rw [if_pos htr, List.mem_singleton, ht, hι]
      · right
        exact (ih a t ι).mpr ⟨hmem2, htr, ht, hι⟩

theorem not_drawAndy_planeLoop (o : DrawOracle) (ps : List Nat)
    (m : List (Nat × Color)) (k a t : Nat) (ι : ℚ) :
    Event.drawAndy a t ι ∉ (planeLoop o ps m k).1 := by
  intro hmem
  have h := planeLoop_countP_zero o isDrawAndy (fun _ => rfl) (fun _ _ => rfl)
    (fun _ => rfl) ps m k
  rw [List.countP_eq_zero] at h
  exact h _ hmem rfl

theorem not_drawAndy_pcEvents (o : DrawOracle) (a t : Nat) (ι : ℚ) :
    Event.drawAndy a t ι ∉ pointCloudEvents o := by
  unfold pointCloudEvents
  split <;> simp

/-- C7: in `OnDrawFrame`, the Andy model is drawn for anchor `a` — at that
anchor's transform matrix and the frame's light intensity — iff `a` is in
`tracked_obj_set_` and its tracking state queried this frame is
`AR_TRACKING_STATE_TRACKING`; any Andy draw for `a` uses exactly that
transform; and `tracked_obj_set_` is left unchanged, so non-tracking anchors
remain in the set. -/
theorem claim_C7_andy_draws (s : AppState) (o : DrawOracle) (a : Nat) :
    (Event.drawAndy a (o.anchorTransform a) (lightIntensity o) ∈ (OnDrawFrame s o).2 ↔
      a ∈ s.tracked_obj_set_ ∧ o.anchorTracking a = ArTrackingState.tracking) ∧
    (∀ (t : Nat) (ι : ℚ), Event.drawAndy a t ι ∈ (OnDrawFrame s o).2 →
      t = o.anchorTransform a ∧ ι = lightIntensity o) ∧
    (OnDrawFrame s o).1.tracked_obj_set_ = s.tracked_obj_set_ := by
  have htrace : ∀ (t : Nat) (ι : ℚ), Event.drawAndy a t ι ∈ (OnDrawFrame s o).2 ↔
      Event.drawAndy a t ι ∈ andyEvents o s.tracked_obj_set_ := by
    intro t ι
    show Event.drawAndy a t ι ∈ drawFrameTrace s o ↔ _
    unfold drawFrameTrace
    have h1 := not_drawAndy_planeLoop o o.planes s.plane_color_map_ 0 a t ι
    have h2 := not_drawAndy_pcEvents o a t ι
    by_cases hu : o.updateStatus ≠ ArStatus.success <;> simp [hu, h1, h2]
  refine ⟨?_, ?_, rfl⟩
  · rw [htrace, andyEvents_mem]
    constructor
    · rintro ⟨h1, h2, -, -⟩
      exact ⟨h1, h2⟩
    · rintro ⟨h1, h2⟩
      exact ⟨h1, h2, rfl, rfl⟩
  · intro t ι h
    rw [htrace, andyEvents_mem] at h
    exact ⟨h.2.2.1, h.2.2.2⟩

/-! ### Update failure (C10) -/

/-- The oracle with the `ArSession_update` status replaced. -/
def withUpdateStatus (o : DrawOracle) (st : ArStatus) : DrawOracle :=
  { o with updateStatus := st }

theorem andyEvents_withUpdateStatus (o : DrawOracle) (st : ArStatus) :
    ∀ l, andyEvents (withUpdateStatus o st) l = andyEvents o l := by
  intro l
  induction l with
  | nil => rfl
  | cons a rest ih =>
    unfold andyEvents
    rw [ih]
    rfl

theorem planeLoop_withUpdateStatus (o : DrawOracle) (st : ArStatus) :
    ∀ ps m k, planeLoop (withUpdateStatus o st) ps m k = planeLoop o ps m k := by
  intro ps
  induction ps with
  | nil => intro m k; rfl
  | cons p rest ih =>
    intro m k
    unfold planeLoop
    rcases hfind : mapFind m p with _ | c0
    · simp only [hfind]
      rw [ih]
      rfl
    · simp only [hfind]
      rw [ih]

/-- C10: when `ArSession_update` fails, `OnDrawFrame` only logs the error and
does not return early: the resulting state is the same as on a successful
update, and the trace differs from the successful one only in the recorded
update status and the extra error-log event — the whole rendering sequence
`rest` (camera matrices, background, light estimate, anchors, planes, point
cloud) is still executed. -/
theorem claim_C10_update_failure (s : AppState) (o : DrawOracle)
    (hu : o.updateStatus ≠ ArStatus.success) :
    (OnDrawFrame s o).1 = (OnDrawFrame s (withUpdateStatus o ArStatus.success)).1 ∧
    ∃ rest,
      (OnDrawFrame s o).2 =
        Event.update o.updateStatus :: Event.logError 0 :: rest ∧
      (OnDrawFrame s (withUpdateStatus o ArStatus.success)).2 =
        Event.update ArStatus.success :: rest := by
  constructor
  · rw [OnDrawFrame_state, OnDrawFrame_state, planeLoop_withUpdateStatus]
    rfl
  · refine ⟨[Event.acquire (Obj.camera o.cameraId), Event.readView o.cameraId,
      Event.readProj o.cameraId, Event.release (Obj.camera o.cameraId)] ++
      [Event.drawBackground] ++
      [Event.acquire (Obj.lightEstimate o.lightId),
       Event.release (Obj.lightEstimate o.lightId)] ++
      andyEvents o s.tracked_obj_set_ ++
      ([Event.acquire (Obj.trackableList o.planeListId)] ++
        (planeLoop o o.planes s.plane_color_map_ 0).1 ++
        [Event.release (Obj.trackableList o.planeListId)]) ++
      pointCloudEvents o, ?_, ?_⟩
    · show drawFrameTrace s o = _
      unfold drawFrameTrace
      rw [if_pos hu]
      simp [List.append_assoc]
    · show drawFrameTrace s (withUpdateStatus o ArStatus.success) = _
      unfold drawFrameTrace
      rw [if_neg (by simp [withUpdateStatus])]
      rw [andyEvents_withUpdateStatus, planeLoop_withUpdateStatus]
      simp [List.append_assoc, withUpdateStatus, pointCloudEvents]

theorem claim_C10_witness :
    (OnDrawFrame sAlive (withUpdateStatus oDrawBasic (ArStatus.error 5))).1 =
      (OnDrawFrame sAlive (withUpdateStatus (withUpdateStatus oDrawBasic (ArStatus.error 5))
        ArStatus.success)).1 ∧
    ∃ rest,
      (OnDrawFrame sAlive (withUpdateStatus oDrawBasic (ArStatus.error 5))).2 =
        Event.update (withUpdateStatus oDrawBasic (ArStatus.error 5)).updateStatus ::
          Event.logError 0 :: rest ∧
      (OnDrawFrame sAlive (withUpdateStatus (withUpdateStatus oDrawBasic (ArStatus.error 5))
          ArStatus.success)).2 = Event.update ArStatus.success :: rest :=
  claim_C10_update_failure sAlive (withUpdateStatus oDrawBasic (ArStatus.error 5))
    (by simp [withUpdateStatus])

/-! ### The constructor (C6) -/

/-- A constructor oracle in which every SDK call succeeds. -/
def oCtorGood : CtorOracle :=
  { createStatus := ArStatus.success, sessionOk := true, configOk := true,
    supportedStatus := ArStatus.success, configureStatus := ArStatus.success,
    frameOk := true }

/-- A constructor oracle in which `ArSession_checkSupported` fails. -/
def oCtorBad : CtorOracle :=
  { createStatus := ArStatus.success, sessionOk := true, configOk := true,
    supportedStatus := ArStatus.error 2, configureStatus := ArStatus.success,
    frameOk := true }

/-- C6: the constructor performs the fixed sequence create-session,
create-config, check-supported, configure, destroy-config, create-frame
(`ctorEvents`); whenever it returns an object, both `ar_session_` and
`ar_frame_` are non-null; and any SDK failure in the sequence aborts via
`CHECK`, yielding no (partially initialized) object. -/
theorem claim_C6_ctor_sequence (o : CtorOracle) :
    (∀ st ev, HelloArApplicationCtor o = some (st, ev) →
      st.ar_session_.isSome ∧ st.ar_frame_.isSome ∧ ev = ctorEvents) ∧
    ((o.createStatus ≠ ArStatus.success ∨ o.sessionOk = false ∨ o.configOk = false ∨
        o.supportedStatus ≠ ArStatus.success ∨ o.configureStatus ≠ ArStatus.success ∨
        o.frameOk = false) → HelloArApplicationCtor o = none) := by
  constructor
  · intro st ev h
    unfold HelloArApplicationCtor at h
    split_ifs at h
    simp only [Option.some.injEq, Prod.mk.injEq] at h
    rcases h with ⟨h1, h2⟩
    subst h1
    subst h2
    exact ⟨rfl, rfl, rfl⟩
  · intro hfail
    unfold HelloArApplicationCtor
    split_ifs with h1 h2 h3 h4 h5 h6
    · rcases hfail with h | h | h | h | h | h <;> simp_all
    all_goals rfl

theorem claim_C6_witness :
    (sAlive.ar_session_.isSome ∧ sAlive.ar_frame_.isSome ∧ ctorEvents = ctorEvents) ∧
    HelloArApplicationCtor oCtorBad = none :=
  ⟨(claim_C6_ctor_sequence oCtorGood).1 sAlive ctorEvents rfl,
   (claim_C6_ctor_sequence oCtorBad).2 (by decide)⟩

/-! ### Plane colors (C8) -/

/-- All three RGB components lie in `[0, 1]`. -/
def colorInRange (c : Color) : Prop :=
  0 ≤ c.r ∧ c.r ≤ 1 ∧ 0 ≤ c.g ∧ c.g ≤ 1 ∧ 0 ≤ c.b ∧ c.b ≤ 1

instance (c : Color) : Decidable (colorInRange c) := by
  unfold colorInRange
  infer_instance

theorem mapFind_append_of_found (x : Nat × Color) (p : Nat) (c : Color) :
    ∀ m : List (Nat × Color), mapFind m p = some c → mapFind (m ++ [x]) p = some c := by
  intro m
  induction m with
  | nil => intro h; simp [mapFind] at h
  | cons kv rest ih =>
    intro h
    unfold mapFind at h ⊢
    rw [List.cons_append]
    rw [List.find?_cons] at h
    rw [List.find?_cons]
    cases hkv : (kv.1 == p) <;> rw [hkv] at h
    · exact ih h
    · exact h

theorem mapFind_append_self (p : Nat) (c : Color) :
    ∀ m : List (Nat × Color), mapFind m p = none → mapFind (m ++ [(p, c)]) p = some c := by
  intro m
  induction m with
  | nil => intro _; simp [mapFind]
  | cons kv rest ih =>
    intro h
    unfold mapFind at h ⊢
    rw [List.cons_append]
    rw [List.find?_cons] at h
    rw [List.find?_cons]
    cases hkv : (kv.1 == p) <;> rw [hkv] at h
    · exact ih h
    · simp at h

theorem mapFind_append_inv (x : Nat × Color) (p : Nat) (c : Color) :
    ∀ m : List (Nat × Color), mapFind (m ++ [x]) p = some c →
      mapFind m p = some c ∨ (x.1 = p ∧ x.2 = c) := by
  intro m
  induction m with
  | nil =>
    intro h
    unfold mapFind at h
    rw [List.nil_append, List.find?_cons] at h
    cases hkv : (x.1 == p) <;> rw [hkv] at h
    · simp at h
    · simp at h
      simp only [beq_iff_eq] at hkv
      exact Or.inr ⟨hkv, h⟩
  | cons kv rest ih =>
    intro h
    unfold mapFind at h ⊢
    rw [List.cons_append, List.find?_cons] at h
    rw [List.find?_cons]
    cases hkv : (kv.1 == p)
    · rw [hkv] at h
      exact ih h
    · rw [hkv] at h
      exact Or.inl h

theorem mapFind_mapInsert_of_found (q : Nat) (c2 : Color) (m : List (Nat × Color))
    (p : Nat) (c : Color) (h : mapFind m p = some c) :
    mapFind (mapInsert m q c2) p = some c := by
  unfold mapInsert
  rcases hq : mapFind m q with _ | c0
  · exact mapFind_append_of_found (q, c2) p c m h
  · exact h

theorem mapFind_mapInsert_self (q : Nat) (c2 : Color) (m : List (Nat × Color))
    (h : mapFind m q = none) : mapFind (mapInsert m q c2) q = some c2 := by
  unfold mapInsert
  rw [h]
  exact mapFind_append_self q c2 m h

theorem mapFind_mapInsert_inv (q : Nat) (c2 : Color) (m : List (Nat × Color))
    (p : Nat) (c : Color) (h : mapFind (mapInsert m q c2) p = some c) :
    mapFind m p = some c ∨ c = c2 := by
  unfold mapInsert at h
  rcases hq : mapFind m q with _ | c0
  · rw [hq] at h
    rcases mapFind_append_inv (q, c2) p c m h with h2 | h2
    · exact Or.inl h2
    · exact Or.inr h2.2.symm
  · rw [hq] at h
    exact Or.inl h

theorem planeLoop_map_spec (o : DrawOracle) :
    ∀ (ps : List Nat) (m : List (Nat × Color)) (k : Nat),
      (∀ p c, mapFind m p = some c → mapFind (planeLoop o ps m k).2.1 p = some c) ∧
      (∀ p c, Event.drawPlane p c ∈ (planeLoop o ps m k).1 →
        mapFind (planeLoop o ps m k).2.1 p = some c) ∧
      (∀ p c, mapFind (planeLoop o ps m k).2.1 p = some c →
        mapFind m p = some c ∨ ∃ r, c = GetRandomPlaneColor r) := by
  intro ps
  induction ps with
  | nil =>
    intro m k
    exact ⟨fun p c h => h, fun p c h => absurd h (List.not_mem_nil _),
      fun p c h => Or.inl h⟩
  | cons q rest ih =>
    intro m k
    unfold planeLoop
    rcases hfind : mapFind m q with _ | c0
    · simp only [hfind]
      have ihm := ih (mapInsert m q (GetRandomPlaneColor (o.rand k))) (k + 1)
      refine ⟨?_, ?_, ?_⟩
      · intro p c h
        exact ihm.1 p c (mapFind_mapInsert_of_found q _ m p c h)
      · intro p c h
        rcases List.mem_append.mp h with h2 | h2
        · simp only [List.mem_cons, List.not_mem_nil, or_false] at h2
          rcases h2 with h2 | h2 | h2
          · exact absurd h2 (by simp)
          · injection h2 with hp hc
            subst hp
            subst hc
            exact ihm.1 p _ (mapFind_mapInsert_self p _ m hfind)
          · exact absurd h2 (by simp)
        · exact ihm.2.1 p c h2
      · intro p c h
        rcases ihm.2.2 p c h with h2 | h2
        · rcases mapFind_mapInsert_inv q _ m p c h2 with h3 | h3
          · exact Or.inl h3
          · exact Or.inr ⟨o.rand k, h3⟩
        · exact Or.inr h2
    · simp only [hfind]
      have ihm := ih m k
      refine ⟨?_, ?_, ?_⟩
      · intro p c h
        exact ihm.1 p c h
      · intro p c h
        rcases List.mem_append.mp h with h2 | h2
        · simp only [List.mem_cons, List.not_mem_nil, or_false] at h2
          rcases h2 with h2 | h2 | h2
          · exact absurd h2 (by simp)
          · injection h2 with hp hc
            subst hp
            subst hc
            exact ihm.1 p _ hfind
          · exact absurd h2 (by simp)
        · exact ihm.2.1 p c h2
      · exact ihm.2.2

/-- A plane draw event. -/
def isDrawPlane (e : Event) : Bool :=
  match e with
  | Event.drawPlane _ _ => true
  | _ => false

theorem colorFromRgba_inRange (n : Nat) : colorInRange (colorFromRgba n) := by
  have hb : ∀ m : Nat, ((m &&& 0xff : Nat) : ℚ) ≤ 255 := by
    intro m
    exact_mod_cast Nat.and_le_right
  unfold colorInRange colorFromRgba
  refine ⟨?_, ?_, ?_, ?_, ?_, ?_⟩ <;>
    first
      | positivity
      | (rw [div_le_one (by norm_num)]
         exact hb _)

theorem drawPlane_mem_trace (s : AppState) (o : DrawOracle) (p : Nat) (c : Color) :
    Event.drawPlane p c ∈ (OnDrawFrame s o).2 ↔
      Event.drawPlane p c ∈ (planeLoop o o.planes s.plane_color_map_ 0).1 := by
  show Event.drawPlane p c ∈ drawFrameTrace s o ↔ _
  unfold drawFrameTrace
  have h1 : Event.drawPlane p c ∉ andyEvents o s.tracked_obj_set_ := by
    intro hmem
    have h := andyEvents_countP_zero o isDrawPlane (fun _ _ _ => rfl) s.tracked_obj_set_
    rw [List.countP_eq_zero] at h
    exact h _ hmem rfl
  have h2 : Event.drawPlane p c ∉ pointCloudEvents o := by
    unfold pointCloudEvents
    split <;> simp
  by_cases hu : o.updateStatus ≠ ArStatus.success <;> simp [hu, h1, h2]

/-- C8: every `GetRandomPlaneColor` result uses an in-bounds index into the
16-entry `kPlaneColorRgba` palette and has all RGB components in `[0, 1]`; a
plane's stored color is never modified once inserted in `plane_color_map_`
(so later frames draw the same stored color); every color drawn for a plane
this frame is the color stored for it after the frame; and every stored color
either predates the frame or is some `GetRandomPlaneColor` value. -/
theorem claim_C8_plane_colors (s : AppState) (o : DrawOracle) (p : Nat) (c : Color) :
    (∀ r : Nat, r % kPlaneColorRgbaSize < kPlaneColorRgbaSize ∧
      colorInRange (GetRandomPlaneColor r)) ∧
    (mapFind s.plane_color_map_ p = some c →
      mapFind (OnDrawFrame s o).1.plane_color_map_ p = some c) ∧
    (Event.drawPlane p c ∈ (OnDrawFrame s o).2 →
      mapFind (OnDrawFrame s o).1.plane_color_map_ p = some c) ∧
    (mapFind (OnDrawFrame s o).1.plane_color_map_ p = some c →
      mapFind s.plane_color_map_ p = some c ∨ ∃ r, c = GetRandomPlaneColor r) := by
  have hstate : (OnDrawFrame s o).1.plane_color_map_ =
      (planeLoop o o.planes s.plane_color_map_ 0).2.1 := rfl
  have hspec := planeLoop_map_spec o o.planes s.plane_color_map_ 0
  have hlt : ∀ r : Nat, r % kPlaneColorRgbaSize < kPlaneColorRgbaSize := by
    intro r
    exact Nat.mod_lt _ (by norm_num [kPlaneColorRgbaSize])
  refine ⟨?_, ?_, ?_, ?_⟩
  · intro r
    exact ⟨hlt r, colorFromRgba_inRange _⟩
  · intro h
    rw [hstate]
    exact hspec.1 p c h
  · intro h
    rw [hstate]
    exact hspec.2.1 p c ((drawPlane_mem_trace s o p c).mp h)
  · intro h
    rw [hstate] at h
    exact hspec.2.2 p c h

/-- The color assigned by the first `std::rand()` draw. -/
def cTest : Color := GetRandomPlaneColor 0

/-- A live state whose `plane_color_map_` already maps plane 10 to `cTest`. -/
def sWithColor : AppState :=
  { ar_session_ := some 1, ar_frame_ := some 1, tracked_obj_set_ := [],
    plane_color_map_ := [(10, cTest)], plane_count_ := 0 }

theorem claim_C8_witness :
    mapFind (OnDrawFrame sWithColor oDrawBasic).1.plane_color_map_ 10 = some cTest :=
  (claim_C8_plane_colors sWithColor oDrawBasic 10 cTest).2.1 rfl

/-! ### Frame ordering and object lifetime (C4) -/

/-- The phase of an event in the fixed `OnDrawFrame` sequence: session update,
camera block, background, light estimate, Andy draws, plane block, point-cloud
block. -/
def phase : Event → Nat
  | Event.update _ => 0
  | Event.logError _ => 0
  | Event.acquire (Obj.camera _) => 1
  | Event.readView _ => 1
  | Event.readProj _ => 1
  | Event.release (Obj.camera _) => 1
  | Event.drawBackground => 2
  | Event.acquire (Obj.lightEstimate _) => 3
  | Event.release (Obj.lightEstimate _) => 3
  | Event.drawAndy _ _ _ => 4
  | Event.acquire (Obj.trackableList _) => 5
  | Event.release (Obj.trackableList _) => 5
  | Event.acquire (Obj.trackable _) => 5
  | Event.release (Obj.trackable _) => 5
  | Event.drawPlane _ _ => 5
  | Event.acquire (Obj.pointCloud _) => 6
  | Event.release (Obj.pointCloud _) => 6
  | Event.drawPointCloud _ => 6
  | _ => 7

/-- The tracking objects an event feeds to a renderer (or reads from). -/
def uses : Event → List Obj
  | Event.readView cam => [Obj.camera cam]
  | Event.readProj cam => [Obj.camera cam]
  | Event.drawBackground => [Obj.frame]
  | Event.drawAndy a _ _ => [Obj.anchor a]
  | Event.drawPlane p _ => [Obj.trackable p]
  | Event.drawPointCloud n => [Obj.pointCloud n]
  | _ => []

/-- `ob` may be used after the prefix `pre`: it was never released there, or
strictly fewer references were released than acquired. -/
def liveOkB (pre : List Event) (ob : Obj) : Bool :=
  (relCount ob pre == 0) || decide (relCount ob pre < acqCount ob pre)

/-- Every event of the second list only uses objects that are live after
`pre` plus the list's earlier events. -/
def usesOkB : List Event → List Event → Bool
  | _, [] => true
  | pre, e :: rest => (uses e).all (liveOkB pre) && usesOkB (pre ++ [e]) rest

theorem usesOkB_append (l1 : List Event) :
    ∀ (pre l2 : List Event),
      usesOkB pre (l1 ++ l2) = (usesOkB pre l1 && usesOkB (pre ++ l1) l2) := by
  induction l1 with
  | nil => intro pre l2; simp [usesOkB]
  | cons e rest ih =>
    intro pre l2
    show ((uses e).all (liveOkB pre) && usesOkB (pre ++ [e]) (rest ++ l2)) = _
    rw [ih]
    show _ = (((uses e).all (liveOkB pre) && usesOkB (pre ++ [e]) rest) && _)
    simp [List.append_assoc, Bool.and_assoc]

theorem usesOkB_of_no_uses (l : List Event) (h : ∀ e ∈ l, uses e = []) :
    ∀ pre, usesOkB pre l = true := by
  induction l with
  | nil => intro pre; rfl
  | cons e rest ih =>
    intro pre
    show ((uses e).all (liveOkB pre) && usesOkB (pre ++ [e]) rest) = true
    rw [h e (List.mem_cons_self e rest)]
    simp only [List.all_nil, Bool.true_and]
    exact ih (fun e2 he2 => h e2 (List.mem_cons_of_mem _ he2)) (pre ++ [e])

theorem liveOkB_of_rel_zero (pre : List Event) (ob : Obj)
    (h : relCount ob pre = 0) : liveOkB pre ob = true := by
  simp [liveOkB, h]

theorem liveOkB_of_lt (pre : List Event) (ob : Obj)
    (h : relCount ob pre < acqCount ob pre) : liveOkB pre ob = true := by
  simp [liveOkB, h]

theorem usesOkB_cameraSeg (pre : List Event) (cid : Nat)
    (h : relCount (Obj.camera cid) pre = 0) :
    usesOkB pre [Event.acquire (Obj.camera cid), Event.readView cid,
      Event.readProj cid, Event.release (Obj.camera cid)] = true := by
  have h1 : relCount (Obj.camera cid) (pre ++ [Event.acquire (Obj.camera cid)]) = 0 := by
    rw [relCount_append, h]
    simp [relCount]
  have h2 : relCount (Obj.camera cid)
      (pre ++ [Event.acquire (Obj.camera cid)] ++ [Event.readView cid]) = 0 := by
    rw [relCount_append, h1]
    simp [relCount]
  simp only [usesOkB, uses, List.all_cons, List.all_nil, Bool.and_true, Bool.true_and]
  rw [liveOkB_of_rel_zero _ _ h1, liveOkB_of_rel_zero _ _ h2]
  simp

theorem usesOkB_bg (pre : List Event) (h : relCount Obj.frame pre = 0) :
    usesOkB pre [Event.drawBackground] = true := by
  simp only [usesOkB, uses, List.all_cons, List.all_nil, Bool.and_true]
  rw [liveOkB_of_rel_zero _ _ h]

theorem usesOkB_andy (o : DrawOracle) :
    ∀ (l : List Nat) (pre : List Event),
      (∀ a, relCount (Obj.anchor a) pre = 0) →
      usesOkB pre (andyEvents o l) = true := by
  intro l
  induction l with
  | nil => intro pre _; rfl
  | cons a rest ih =>
    intro pre h
    unfold andyEvents
    rw [usesOkB_append]
    have hhead : usesOkB pre (if o.anchorTracking a = ArTrackingState.tracking then
        [Event.drawAndy a (o.anchorTransform a) (lightIntensity o)] else []) = true := by
      split
      · simp only [usesOkB, uses, List.all_cons, List.all_nil, Bool.and_true]
        rw [liveOkB_of_rel_zero _ _ (h a)]
      · rfl
    rw [hhead]
    have hpre2 : ∀ a2, relCount (Obj.anchor a2)
        (pre ++ (if o.anchorTracking a = ArTrackingState.tracking then
          [Event.drawAndy a (o.anchorTransform a) (lightIntensity o)] else [])) = 0 := by
      intro a2
      rw [relCount_append, h a2]
      split <;> simp [relCount]
    rw [ih _ hpre2]
    rfl

theorem usesOkB_planeLoop (o : DrawOracle) :
    ∀ (ps : List Nat) (m : List (Nat × Color)) (k : Nat) (pre : List Event),
      (∀ q, relCount (Obj.trackable q) pre = acqCount (Obj.trackable q) pre) →
      usesOkB pre (planeLoop o ps m k).1 = true := by
  intro ps
  induction ps with
  | nil => intro m k pre _; rfl
  | cons q rest ih =>
    intro m k pre h
    have hseg : ∀ (c : Color) (m2 : List (Nat × Color)) (k2 : Nat),
        usesOkB pre ([Event.acquire (Obj.trackable q), Event.drawPlane q c,
            Event.release (Obj.trackable q)] ++ (planeLoop o rest m2 k2).1) = true := by
      intro c m2 k2
      rw [usesOkB_append]
      have hlive : liveOkB (pre ++ [Event.acquire (Obj.trackable q)])
          (Obj.trackable q) = true := by
        refine liveOkB_of_lt _ _ ?_
        rw [relCount_append, acqCount_append, h q]
        have hx : relCount (Obj.trackable q) [Event.acquire (Obj.trackable q)] = 0 := by
          simp [relCount]
        have hy : acqCount (Obj.trackable q) [Event.acquire (Obj.trackable q)] = 1 := by
          simp [acqCount]
        omega
      have hhead : usesOkB pre [Event.acquire (Obj.trackable q), Event.drawPlane q c,
          Event.release (Obj.trackable q)] = true := by
        simp only [usesOkB, uses, List.all_cons, List.all_nil, Bool.and_true,
          Bool.true_and]
        rw [hlive]
      rw [hhead]
      have hpre2 : ∀ q2, relCount (Obj.trackable q2)
          (pre ++ [Event.acquire (Obj.trackable q), Event.drawPlane q c,
            Event.release (Obj.trackable q)]) =
          acqCount (Obj.trackable q2)
            (pre ++ [Event.acquire (Obj.trackable q), Event.drawPlane q c,
              Event.release (Obj.trackable q)]) := by
        intro q2
        rw [relCount_append, acqCount_append, h q2]
        have hz : relCount (Obj.trackable q2) [Event.acquire (Obj.trackable q),
            Event.drawPlane q c, Event.release (Obj.trackable q)] =
          acqCount (Obj.trackable q2) [Event.acquire (Obj.trackable q),
            Event.drawPlane q c, Event.release (Obj.trackable q)] := by
          simp [relCount, acqCount, List.countP_cons]
        omega
      rw [ih _ _ _ hpre2]
      rfl
    unfold planeLoop
    rcases hfind : mapFind m q with _ | c0
    · simp only [hfind]
      exact hseg _ _ _
    · simp only [hfind]
      exact hseg _ _ _

theorem usesOkB_pc (o : DrawOracle) (pre : List Event)
    (h : relCount (Obj.pointCloud o.pcId) pre = 0) :
    usesOkB pre (pointCloudEvents o) = true := by
  unfold pointCloudEvents
  split
  · have h1 : relCount (Obj.pointCloud o.pcId)
        (pre ++ [Event.acquire (Obj.pointCloud o.pcId)]) = 0 := by
      rw [relCount_append, h]
      simp [relCount]
    simp only [usesOkB, uses, List.all_cons, List.all_nil, Bool.and_true,
      Bool.true_and]
    rw [liveOkB_of_rel_zero _ _ h1]
  · rfl

theorem phase_andyEvents (o : DrawOracle) :
    ∀ l, ∀ e ∈ andyEvents o l, phase e = 4 := by
  intro l
  induction l with
  | nil => intro e he; exact absurd he (List.not_mem_nil _)
  | cons a rest ih =>
    intro e he
    unfold andyEvents at he
    rcases List.mem_append.mp he with h | h
    · split at h
      · rw [List.mem_singleton] at h
        subst h
        rfl
      · exact absurd h (List.not_mem_nil _)
    · exact ih e h

theorem phase_planeLoop (o : DrawOracle) :
    ∀ ps m k, ∀ e ∈ (planeLoop o ps m k).1, phase e = 5 := by
  intro ps
  induction ps with
  | nil => intro m k e he; exact absurd he (List.not_mem_nil _)
  | cons q rest ih =>
    intro m k e he
    unfold planeLoop at he
    rcases hfind : mapFind m q with _ | c0 <;> rw [hfind] at he <;>
      rcases List.mem_append.mp he with h | h
    · simp only [List.mem_cons, List.not_mem_nil, or_false] at h
      rcases h with rfl | rfl | rfl <;> rfl
    · exact ih _ _ e h
    · simp only [List.mem_cons, List.not_mem_nil, or_false] at h
      rcases h with rfl | rfl | rfl <;> rfl
    · exact ih _ _ e h

theorem phase_pc (o : DrawOracle) : ∀ e ∈ pointCloudEvents o, phase e = 6 := by
  intro e he
  unfold pointCloudEvents at he
  split at he
  · simp only [List.mem_cons, List.not_mem_nil, or_false] at he
    rcases he with rfl | rfl | rfl <;> rfl
  · exact absurd he (List.not_mem_nil _)

theorem sorted_map_phase_const (l : List Event) (c : Nat)
    (h : ∀ e ∈ l, phase e = c) : (l.map phase).Sorted (· ≤ ·) := by
  induction l with
  | nil => simp
  | cons e rest ih =>
    rw [List.map_cons, List.sorted_cons]
    constructor
    · intro b hb
      rcases List.mem_map.mp hb with ⟨e2, he2, rfl⟩
      rw [h e (List.mem_cons_self _ _), h e2 (List.mem_cons_of_mem _ he2)]
    · exact ih (fun e2 he2 => h e2 (List.mem_cons_of_mem _ he2))

theorem sorted_map_phase_append (l1 l2 : List Event) (c : Nat)
    (h1 : ∀ e ∈ l1, phase e ≤ c) (h2 : ∀ e ∈ l2, c ≤ phase e)
    (s1 : (l1.map phase).Sorted (· ≤ ·)) (s2 : (l2.map phase).Sorted (· ≤ ·)) :
    ((l1 ++ l2).map phase).Sorted (· ≤ ·) := by
  rw [List.map_append]
  refine List.pairwise_append.mpr ⟨s1, s2, ?_⟩
  intro x hx y hy
  rcases List.mem_map.mp hx with ⟨e1, he1, rfl⟩
  rcases List.mem_map.mp hy with ⟨e2, he2, rfl⟩
  exact (h1 e1 he1).trans (h2 e2 he2)

theorem phaseLB_append {c : Nat} {l1 l2 : List Event}
    (h1 : ∀ e ∈ l1, c ≤ phase e) (h2 : ∀ e ∈ l2, c ≤ phase e) :
    ∀ e ∈ l1 ++ l2, c ≤ phase e := by
  intro e he
  rcases List.mem_append.mp he with h | h
  · exact h1 e h
  · exact h2 e h

theorem phaseLB_of_eq {c c2 : Nat} {l : List Event}
    (h : ∀ e ∈ l, phase e = c2) (hc : c ≤ c2) : ∀ e ∈ l, c ≤ phase e :=
  fun e he => (h e he) ▸ hc

theorem phaseUB_append {c : Nat} {l1 l2 : List Event}
    (h1 : ∀ e ∈ l1, phase e ≤ c) (h2 : ∀ e ∈ l2, phase e ≤ c) :
    ∀ e ∈ l1 ++ l2, phase e ≤ c := by
  intro e he
  rcases List.mem_append.mp he with h | h
  · exact h1 e h
  · exact h2 e h

theorem phaseUB_of_eq {c c2 : Nat} {l : List Event}
    (h : ∀ e ∈ l, phase e = c2) (hc : c2 ≤ c) : ∀ e ∈ l, phase e ≤ c :=
  fun e he => (h e he) ▸ hc

/-- C4: every `OnDrawFrame` trace is in the fixed phase order — session
update (with its error log), then camera acquisition, view/projection reads
and camera release, then the background draw, then the light estimate, then
Andy draws, then the plane block, then the point-cloud block (`phase` is
monotone along the trace); the trace starts with the `ArSession_update`
event; and no renderer is ever fed a tracking object that is no longer live
(`usesOkB`: at every use, the object was never released, or strictly fewer
references were released than acquired). -/
theorem claim_C4_frame_order (s : AppState) (o : DrawOracle) :
    ((OnDrawFrame s o).2.map phase).Sorted (· ≤ ·) ∧
    (OnDrawFrame s o).2.head? = some (Event.update o.updateStatus) ∧
    usesOkB [] (OnDrawFrame s o).2 = true := by
  have h1 : ∀ e ∈ [Event.update o.updateStatus], phase e = 0 := by
    intro e he
    rw [List.mem_singleton] at he
    subst he
    rfl
  have h2 : ∀ e ∈ (if o.updateStatus ≠ ArStatus.success then [Event.logError 0] else []),
      phase e = 0 := by
    intro e he
    split at he
    · rw [List.mem_singleton] at he
      subst he
      rfl
    · exact absurd he (List.not_mem_nil _)
  have h3 : ∀ e ∈ [Event.acquire (Obj.camera o.cameraId), Event.readView o.cameraId,
      Event.readProj o.cameraId, Event.release (Obj.camera o.cameraId)], phase e = 1 := by
    intro e he
    simp only [List.mem_cons, List.not_mem_nil, or_false] at he
    rcases he with rfl | rfl | rfl | rfl <;> rfl
  have h4 : ∀ e ∈ [Event.drawBackground], phase e = 2 := by
    intro e he
    rw [List.mem_singleton] at he
    subst he
    rfl
  have h5 : ∀ e ∈ [Event.acquire (Obj.lightEstimate o.lightId),
      Event.release (Obj.lightEstimate o.lightId)], phase e = 3 := by
    intro e he
    simp only [List.mem_cons, List.not_mem_nil, or_false] at he
    rcases he with rfl | rfl <;> rfl
  have h6 := phase_andyEvents o s.tracked_obj_set_
  have h7 : ∀ e ∈ ([Event.acquire (Obj.trackableList o.planeListId)] ++
      (planeLoop o o.planes s.plane_color_map_ 0).1 ++
      [Event.release (Obj.trackableList o.planeListId)]), phase e = 5 := by
    intro e he
    rcases List.mem_append.mp he with h | h
    · rcases List.mem_append.mp h with h | h
      · rw [List.mem_singleton] at h
        subst h
        rfl
      · exact phase_planeLoop o _ _ _ e h
    · rw [List.mem_singleton] at h
      subst h
      rfl
  have h8 := phase_pc o
  refine ⟨?_, rfl, ?_⟩
  · show ((drawFrameTrace s o).map phase).Sorted (· ≤ ·)
    unfold drawFrameTrace
    refine sorted_map_phase_append _ _ 6 ?_ (phaseLB_of_eq h8 (by norm_num)) ?_
      (sorted_map_phase_const _ _ h8)
    · exact phaseUB_append (phaseUB_append (phaseUB_append (phaseUB_append
        (phaseUB_append (phaseUB_append (phaseUB_of_eq h1 (by norm_num))
          (phaseUB_of_eq h2 (by norm_num))) (phaseUB_of_eq h3 (by norm_num)))
        (phaseUB_of_eq h4 (by norm_num))) (phaseUB_of_eq h5 (by norm_num)))
        (phaseUB_of_eq h6 (by norm_num))) (phaseUB_of_eq h7 (by norm_num))
    · refine sorted_map_phase_append _ _ 5 ?_ (phaseLB_of_eq h7 (by norm_num)) ?_
        (sorted_map_phase_const _ _ h7)
      · exact phaseUB_append (phaseUB_append (phaseUB_append (phaseUB_append
          (phaseUB_append (phaseUB_of_eq h1 (by norm_num))
            (phaseUB_of_eq h2 (by norm_num))) (phaseUB_of_eq h3 (by norm_num)))
          (phaseUB_of_eq h4 (by norm_num))) (phaseUB_of_eq h5 (by norm_num)))
          (phaseUB_of_eq h6 (by norm_num))
      · refine sorted_map_phase_append _ _ 4 ?_ (phaseLB_of_eq h6 (by norm_num)) ?_
          (sorted_map_phase_const _ _ h6)
        · exact phaseUB_append (phaseUB_append (phaseUB_append (phaseUB_append
            (phaseUB_of_eq h1 (by norm_num)) (phaseUB_of_eq h2 (by norm_num)))
            (phaseUB_of_eq h3 (by norm_num))) (phaseUB_of_eq h4 (by norm_num)))
            (phaseUB_of_eq h5 (by norm_num))
        · refine sorted_map_phase_append _ _ 3 ?_ (phaseLB_of_eq h5 (by norm_num)) ?_
            (sorted_map_phase_const _ _ h5)
          · exact phaseUB_append (phaseUB_append (phaseUB_append
              (phaseUB_of_eq h1 (by norm_num)) (phaseUB_of_eq h2 (by norm_num)))
              (phaseUB_of_eq h3 (by norm_num))) (phaseUB_of_eq h4 (by norm_num))
          · refine sorted_map_phase_append _ _ 2 ?_ (phaseLB_of_eq h4 (by norm_num)) ?_
              (sorted_map_phase_const _ _ h4)
            · exact phaseUB_append (phaseUB_append (phaseUB_of_eq h1 (by norm_num))
                (phaseUB_of_eq h2 (by norm_num))) (phaseUB_of_eq h3 (by norm_num))
            · refine sorted_map_phase_append _ _ 1 ?_ (phaseLB_of_eq h3 (by norm_num)) ?_
                (sorted_map_phase_const _ _ h3)
              · exact phaseUB_append (phaseUB_of_eq h1 (by norm_num))
                  (phaseUB_of_eq h2 (by norm_num))
              · exact sorted_map_phase_append _ _ 0 (phaseUB_of_eq h1 (by norm_num))
                  (phaseLB_of_eq h2 (by norm_num)) (sorted_map_phase_const _ _ h1)
                  (sorted_map_phase_const _ _ h2)
  · show usesOkB [] (drawFrameTrace s o) = true
    unfold drawFrameTrace
    simp only [usesOkB_append, List.nil_append, Bool.and_eq_true]
    repeat' apply And.intro
    · exact usesOkB_of_no_uses _ (fun e he => by
        rw [List.mem_singleton] at he
        subst he
        rfl) _
    · refine usesOkB_of_no_uses _ (fun e he => ?_) _
      split at he
      · rw [List.mem_singleton] at he
        subst he
        rfl
      · exact absurd he (List.not_mem_nil _)
    · refine usesOkB_cameraSeg _ _ ?_
      rw [relCount_append]
      split <;> simp [relCount]
    · refine usesOkB_bg _ ?_
      simp only [relCount_append]
      split <;> simp [relCount, List.countP_cons]
    · exact usesOkB_of_no_uses _ (fun e he => by
        simp only [List.mem_cons, List.not_mem_nil, or_false] at he
        rcases he with rfl | rfl <;> rfl) _
    · refine usesOkB_andy o _ _ ?_
      intro a
      simp only [relCount_append]
      split <;> simp [relCount, List.countP_cons]
    · exact usesOkB_of_no_uses _ (fun e he => by
        rw [List.mem_singleton] at he
        subst he
        rfl) _
    · refine usesOkB_planeLoop o _ _ _ _ ?_
      intro q
      simp only [relCount_append, acqCount_append]
      have ha := andyEvents_counts o s.tracked_obj_set_ (Obj.trackable q)
      rw [ha.1, ha.2]
      split <;> simp [relCount, acqCount, List.countP_cons]
    · exact usesOkB_of_no_uses _ (fun e he => by
        rw [List.mem_singleton] at he
        subst he
        rfl) _
    · refine usesOkB_pc o _ ?_
      simp only [relCount_append]
      have hl := (planeLoop_count_other o o.planes s.plane_color_map_ 0
        (Obj.pointCloud o.pcId) (fun p => by simp)).2
      have ha := (andyEvents_counts o s.tracked_obj_set_ (Obj.pointCloud o.pcId)).2
      rw [hl, ha]
      split <;> simp [relCount, List.countP_cons]

theorem claim_C4_witness :
    ((OnDrawFrame sAlive oDrawBasic).2.map phase).Sorted (· ≤ ·) :=
  (claim_C4_frame_order sAlive oDrawBasic).1

theorem claim_C7_witness :
    (OnDrawFrame sAlive oDrawBasic).1.tracked_obj_set_ = sAlive.tracked_obj_set_ :=
  (claim_C7_andy_draws sAlive oDrawBasic 0).2.2

end HelloAr
